import Mathlib

/-!
Verification of the capnproto-rust code generator plugin (`capnpc-rust/codegen.rs`)
against its natural-language specification.

The development shallowly embeds the parts of `codegen.rs` that the claims are
about:

* the schema data model (`Node`, `Field`, `Ty`, `Val`, `ElementSize`) as read
  from the decoded `CodeGeneratorRequest`;
* the text-tree builder (`FormattedText`, `to_lines`, `stringify`);
* the identifier helper `capitalize_first_letter`;
* the scope resolver `populate_scope_map` and the per-file seeding done by
  `main`;
* the accessor emitter (`getter_text`, `prim_default`, `generate_setter` and
  its helpers, `list_list_type_param`, `zero_fields_of_group`);
* the interface-dispatch emission fragment of `generate_node`
  (`base_dispatch_arms`, the `dispatch_call` and `dispatch_call_internal`
  blocks).

Modelling conventions:

* Rust machine integers that the claims never overflow (offsets, node ids,
  discriminants) are modelled as `Nat`; signed schema values as `Int`.
* Floating-point schema default values are modelled by integral values
  (`Int`); the claims under study depend only on whether the default is zero
  and on its printed form, never on float arithmetic.
* Code that can panic (`fail!`, assertion failure, out-of-bounds indexing,
  indexing a `HashMap` at an absent key) or diverge returns `Option`, with
  `none` for the aborted/diverging run.
* The recursive scope-map walk takes an explicit fuel argument, decremented
  on every recursive call; `none` on fuel exhaustion models the diverging
  run on a cyclic node graph (the real schema graph is acyclic, so every
  claim quantifies over a sufficient fuel).
* All string literals reproduce the exact text emitted by `codegen.rs`;
  literal braces are written with the `\x7b` / `\x7d` escapes.
-/

set_option maxHeartbeats 1600000

namespace Codegen

/-! ## Schema data model (input of the generator, decoded upstream) -/

/-- `schema_capnp::ElementSize` — the preferred list-encoding enum. -/
inductive ElementSize where
  | empty | bit | byte | twoBytes | fourBytes | eightBytes | pointer | inlineComposite
deriving DecidableEq, Repr

/-- `schema_capnp::Type` (its `which()` view): the sum of schema types.
Type ids of `enum`/`structTy`/`interface` refer to nodes by 64-bit id. -/
inductive Ty where
  | void | bool
  | int8 | int16 | int32 | int64
  | uint8 | uint16 | uint32 | uint64
  | float32 | float64
  | text | data
  | list (elementType : Ty)
  | enum (typeId : Nat)
  | structTy (typeId : Nat)
  | interface (typeId : Nat)
  | anyPointer
deriving DecidableEq, Repr

/-- `schema_capnp::Value` (its `which()` view): the sum of schema values,
parallel to `Ty`.  Float payloads are modelled by integral values (see the
header); compound payloads are not consumed by the embedded code paths. -/
inductive Val where
  | void
  | bool (b : Bool)
  | int8 (i : Int) | int16 (i : Int) | int32 (i : Int) | int64 (i : Int)
  | uint8 (n : Nat) | uint16 (n : Nat) | uint32 (n : Nat) | uint64 (n : Nat)
  | float32 (f : Int) | float64 (f : Int)
  | text (s : String) | data
  | list | structVal | interface | anyPointer
  | enum (n : Nat)
deriving DecidableEq, Repr

/-- A `Field` is a slot (data/pointer location, type, default) or a group
(reference to a synthetic struct node). -/
inductive FieldWhich where
  | slot (offset : Nat) (type : Ty) (defaultValue : Val)
  | group (typeId : Nat)
deriving DecidableEq, Repr

/-- `Field::NO_DISCRIMINANT` — the sentinel marking a non-union field. -/
def NO_DISCRIMINANT : Nat := 0xffff

/-- A schema struct field, with its union discriminant value
(`NO_DISCRIMINANT` when the field is not a union member). -/
structure Field where
  name : String
  discriminantValue : Nat
  which : FieldWhich
deriving DecidableEq, Repr

/-- One `(name, id)` entry of a node's `nestedNodes` list. -/
structure NestedNode where
  name : String
  id : Nat
deriving DecidableEq, Repr

/-- The struct-specific attributes consumed by the generator. -/
structure StructNode where
  dataWordCount : Nat
  pointerCount : Nat
  preferredListEncoding : ElementSize
  isGroup : Bool
  discriminantCount : Nat
  discriminantOffset : Nat
  fields : List Field
deriving DecidableEq, Repr

/-- The node-kind discriminator with the kind-specific payloads the embedded
code paths consume (interfaces carry their `extends` id list). -/
inductive NodeWhich where
  | file
  | structNode (st : StructNode)
  | enumNode (enumerants : List String)
  | interfaceNode (extendsIds : List Nat)
  | constNode
  | annotationNode
deriving DecidableEq, Repr

/-- A schema node as consumed by the embedded code: its `nestedNodes` list and
its kind-specific view. -/
structure Node where
  nestedNodes : List NestedNode
  which : NodeWhich
deriving DecidableEq, Repr

/-- The node index: node id → node view.  `main` builds it by inserting every
node of the request keyed by id; ids are unique in a well-formed request, so
the map is modelled as the association list of its entries. -/
abbrev NodeMap : Type := List (Nat × Node)

/-- `node_map.find(&id)` — lookup in the node index. -/
def nm_find (nm : NodeMap) (id : Nat) : Option Node :=
  (List.find? (fun p => p.1 = id) nm).map (fun p => p.2)

/-- The scope map: node id → fully qualified path (list of segments). -/
abbrev ScopeMap : Type := Nat → Option (List String)

/-- The empty scope map. -/
def sm_empty : ScopeMap := fun _ => none

/-- `scope_map.insert(id, names)` — `HashMap` insert (last writer wins). -/
def sm_insert (sm : ScopeMap) (id : Nat) (names : List String) : ScopeMap :=
  fun k => if k = id then some names else sm k

/-! ## Identifier helper: `capitalize_first_letter` (codegen.rs:100-106)

The Rust code copies the characters, then replaces index 0 by
`(chars[0] as u8).to_ascii().to_uppercase().to_char()`:

* indexing `[0]` of an empty buffer panics, so the empty string aborts;
* `as u8` truncates the first character's code point to its low byte;
* `.to_ascii()` asserts that the byte is ASCII (aborts on a byte ≥ 128);
* `.to_uppercase()` maps `a`..`z` to `A`..`Z` and fixes everything else.
-/

/-- `Ascii::to_uppercase` on a byte. -/
def ascii_byte_upper (b : Nat) : Nat :=
  if 97 ≤ b ∧ b ≤ 122 then b - 32 else b

/-- `(c as u8).to_ascii()` — truncate to the low byte, assert it is ASCII. -/
def char_to_ascii (c : Char) : Option Nat :=
  let b := c.toNat % 256
  if b < 128 then some b else none

/-- `capitalize_first_letter` (codegen.rs:100-106). -/
def capitalize_first_letter (s : String) : Option String :=
  match s.data with
  | [] => none
  | c :: rest =>
    (char_to_ascii c).map fun b => String.mk (Char.ofNat (ascii_byte_upper b) :: rest)

/-! ## Text builder: `FormattedText`, `to_lines`, `stringify` (codegen.rs:123-158) -/

/-- The in-memory tree of indented text fragments (codegen.rs:123-129). -/
inductive FormattedText where
  | Indent (t : FormattedText)
  | Branch (ts : List FormattedText)
  | Line (s : String)
  | BlankLine

namespace FormattedText

mutual
/-- Boolean structural equality (the `#[deriving(PartialEq)]` of the source). -/
def beqFT : FormattedText → FormattedText → Bool
  | .Indent a, .Indent b => beqFT a b
  | .Branch a, .Branch b => beqListFT a b
  | .Line a, .Line b => a == b
  | .BlankLine, .BlankLine => true
  | _, _ => false

/-- Boolean equality on lists of fragments. -/
def beqListFT : List FormattedText → List FormattedText → Bool
  | [], [] => true
  | a :: as, b :: bs => beqFT a b && beqListFT as bs
  | _, _ => false
end

mutual
theorem beqFT_iff : ∀ a b : FormattedText, beqFT a b = true ↔ a = b
  | .Indent a, .Indent b => by simp [beqFT, beqFT_iff a b]
  | .Branch a, .Branch b => by simp [beqFT, beqListFT_iff a b]
  | .Line a, .Line b => by simp [beqFT]
  | .BlankLine, .BlankLine => by simp [beqFT]
  | .Indent _, .Branch _ => by simp [beqFT]
  | .Indent _, .Line _ => by simp [beqFT]
  | .Indent _, .BlankLine => by simp [beqFT]
  | .Branch _, .Indent _ => by simp [beqFT]
  | .Branch _, .Line _ => by simp [beqFT]
  | .Branch _, .BlankLine => by simp [beqFT]
  | .Line _, .Indent _ => by simp [beqFT]
  | .Line _, .Branch _ => by simp [beqFT]
  | .Line _, .BlankLine => by simp [beqFT]
  | .BlankLine, .Indent _ => by simp [beqFT]
  | .BlankLine, .Branch _ => by simp [beqFT]
  | .BlankLine, .Line _ => by simp [beqFT]

theorem beqListFT_iff : ∀ a b : List FormattedText, beqListFT a b = true ↔ a = b
  | [], [] => by simp [beqListFT]
  | a :: as, b :: bs => by simp [beqListFT, beqFT_iff a b, beqListFT_iff as bs]
  | [], _ :: _ => by simp [beqListFT]
  | _ :: _, [] => by simp [beqListFT]
end

instance : DecidableEq FormattedText := fun a b => decidable_of_iff _ (beqFT_iff a b)

instance : BEq FormattedText := ⟨beqFT⟩

end FormattedText

/-- `String::from_char(n, ' ')` — `n` copies of the space character. -/
def space_str (n : Nat) : String := String.mk (List.replicate n ' ')

mutual
/-- `to_lines` (codegen.rs:131-152): flatten a tree to its rendered lines,
accumulating the indent level. -/
def to_lines : FormattedText → Nat → List String
  | .Indent ft, indent => to_lines ft (indent + 1)
  | .Branch fts, indent => to_lines_list fts indent
  | .Line s, indent => [space_str (indent * 2) ++ s]
  | .BlankLine, _ => [""]

/-- The `Branch` loop of `to_lines`: push every sub-tree's lines in order. -/
def to_lines_list : List FormattedText → Nat → List String
  | [], _ => []
  | ft :: fts, indent => to_lines ft indent ++ to_lines_list fts indent
end

/-- `stringify` (codegen.rs:154-158): join the lines with `"\n"` and append a
trailing `"\n"`. -/
def stringify (ft : FormattedText) : String :=
  String.intercalate "\n" (to_lines ft 0) ++ "\n"

/-! ## Scope resolver: `populate_scope_map` (codegen.rs:160-195)

The Rust function records `(node_id → scope_names)`, returns early when the
node id is absent from the index, then recurses into every `nestedNodes`
child with the path extended by the child's name, and — when the node is a
struct — into every group field's struct node with the path extended by the
capitalized field name.

The embedding decrements an explicit fuel on every recursive step (see the
header).  `psm_nested` and `psm_groups` are the two `for` loops.
-/

mutual
/-- `populate_scope_map` (codegen.rs:160-195). -/
def populate_scope_map (nm : NodeMap) : Nat → ScopeMap → List String → Nat → Option ScopeMap
  | 0, _, _, _ => none
  | fuel + 1, sm, scope_names, node_id =>
    let sm := sm_insert sm node_id scope_names
    match nm_find nm node_id with
    | none => some sm
    | some node =>
      match psm_nested nm fuel sm scope_names node.nestedNodes with
      | none => none
      | some sm =>
        match node.which with
        | .structNode st => psm_groups nm fuel sm scope_names st.fields
        | _ => some sm

/-- The `nested_nodes` loop of `populate_scope_map` (codegen.rs:170-175). -/
def psm_nested (nm : NodeMap) : Nat → ScopeMap → List String → List NestedNode → Option ScopeMap
  | 0, _, _, _ => none
  | _ + 1, sm, _, [] => some sm
  | fuel + 1, sm, scope_names, nn :: rest =>
    match populate_scope_map nm fuel sm (scope_names ++ [nn.name]) nn.id with
    | none => none
    | some sm => psm_nested nm fuel sm scope_names rest

/-- The group-field loop of `populate_scope_map` (codegen.rs:177-194). -/
def psm_groups (nm : NodeMap) : Nat → ScopeMap → List String → List Field → Option ScopeMap
  | 0, _, _, _ => none
  | _ + 1, sm, _, [] => some sm
  | fuel + 1, sm, scope_names, f :: rest =>
    match f.which with
    | .group typeId =>
      match capitalize_first_letter f.name with
      | none => none
      | some name =>
        match populate_scope_map nm fuel sm (scope_names ++ [name]) typeId with
        | none => none
        | some sm => psm_groups nm fuel sm scope_names rest
    | .slot _ _ _ => psm_groups nm fuel sm scope_names rest
end

/-- One visit of the scope-map walk: the path that was recorded and the node
id it was recorded for. -/
abbrev Visit : Type := List String × Nat

mutual
/-- Ghost instrumentation of `populate_scope_map`: the list of
`(path, node id)` insertions the walk performs, in order.  It consumes fuel
exactly as `populate_scope_map` does. -/
def trace_scope_map (nm : NodeMap) : Nat → List String → Nat → Option (List Visit)
  | 0, _, _ => none
  | fuel + 1, scope_names, node_id =>
    match nm_find nm node_id with
    | none => some [(scope_names, node_id)]
    | some node =>
      match tsm_nested nm fuel scope_names node.nestedNodes with
      | none => none
      | some t1 =>
        match node.which with
        | .structNode st =>
          match tsm_groups nm fuel scope_names st.fields with
          | none => none
          | some t2 => some ((scope_names, node_id) :: (t1 ++ t2))
        | _ => some ((scope_names, node_id) :: t1)

/-- Trace of the `nested_nodes` loop. -/
def tsm_nested (nm : NodeMap) : Nat → List String → List NestedNode → Option (List Visit)
  | 0, _, _ => none
  | _ + 1, _, [] => some []
  | fuel + 1, scope_names, nn :: rest =>
    match trace_scope_map nm fuel (scope_names ++ [nn.name]) nn.id with
    | none => none
    | some t1 =>
      match tsm_nested nm fuel scope_names rest with
      | none => none
      | some t2 => some (t1 ++ t2)

/-- Trace of the group-field loop. -/
def tsm_groups (nm : NodeMap) : Nat → List String → List Field → Option (List Visit)
  | 0, _, _ => none
  | _ + 1, _, [] => some []
  | fuel + 1, scope_names, f :: rest =>
    match f.which with
    | .group typeId =>
      match capitalize_first_letter f.name with
      | none => none
      | some name =>
        match trace_scope_map nm fuel (scope_names ++ [name]) typeId with
        | none => none
        | some t1 =>
          match tsm_groups nm fuel scope_names rest with
          | none => none
          | some t2 => some (t1 ++ t2)
    | .slot _ _ _ => tsm_groups nm fuel scope_names rest
end

/-- Replay a visit trace against a scope map: perform the insertions in
order. -/
def apply_trace (sm : ScopeMap) (t : List Visit) : ScopeMap :=
  t.foldl (fun m v => sm_insert m v.2 v.1) sm

theorem apply_trace_nil (sm : ScopeMap) : apply_trace sm [] = sm := rfl

theorem apply_trace_cons (sm : ScopeMap) (v : Visit) (t : List Visit) :
    apply_trace sm (v :: t) = apply_trace (sm_insert sm v.2 v.1) t := rfl

theorem apply_trace_append (sm : ScopeMap) (t1 t2 : List Visit) :
    apply_trace sm (t1 ++ t2) = apply_trace (apply_trace sm t1) t2 :=
  List.foldl_append _ _ _ _

/-- `populate_scope_map` is exactly the replay of its visit trace: the walk
succeeds iff the trace does, and the resulting scope map is the trace's
insertions applied in order. -/
theorem populate_eq_trace (nm : NodeMap) :
    ∀ fuel,
      (∀ sm scope_names node_id,
        populate_scope_map nm fuel sm scope_names node_id
          = (trace_scope_map nm fuel scope_names node_id).map (apply_trace sm))
      ∧ (∀ sm scope_names ns,
        psm_nested nm fuel sm scope_names ns
          = (tsm_nested nm fuel scope_names ns).map (apply_trace sm))
      ∧ (∀ sm scope_names fs,
        psm_groups nm fuel sm scope_names fs
          = (tsm_groups nm fuel scope_names fs).map (apply_trace sm)) := by
  intro fuel
  induction fuel with
  | zero =>
    refine ⟨fun sm names nid => ?_, fun sm names ns => ?_, fun sm names fs => ?_⟩ <;>
      simp [populate_scope_map, trace_scope_map, psm_nested, tsm_nested, psm_groups, tsm_groups]
  | succ f ih =>
    obtain ⟨ihp, ihn, ihg⟩ := ih
    refine ⟨fun sm names nid => ?_, fun sm names ns => ?_, fun sm names fs => ?_⟩
    · rw [populate_scope_map, trace_scope_map]
      cases hfind : nm_find nm nid with
      | none => simp [apply_trace_nil, apply_trace_cons]
      | some node =>
        dsimp only
        rw [ihn]
        cases hn : tsm_nested nm f names node.nestedNodes with
        | none => rfl
        | some t1 =>
          simp only [Option.map_some']
          cases hw : node.which with
          | structNode st =>
            dsimp only
            rw [ihg]
            cases hg : tsm_groups nm f names st.fields with
            | none => rfl
            | some t2 =>
              simp [apply_trace_cons, apply_trace_append]
          | file => simp [apply_trace_cons]
          | enumNode es => simp [apply_trace_cons]
          | interfaceNode es => simp [apply_trace_cons]
          | constNode => simp [apply_trace_cons]
          | annotationNode => simp [apply_trace_cons]
    · cases ns with
      | nil => simp [psm_nested, tsm_nested, apply_trace_nil]
      | cons nn rest =>
        rw [psm_nested, tsm_nested, ihp]
        cases h1 : trace_scope_map nm f (names ++ [nn.name]) nn.id with
        | none => rfl
        | some t1 =>
          simp only [Option.map_some']
          rw [ihn]
          cases h2 : tsm_nested nm f names rest with
          | none => rfl
          | some t2 => simp [apply_trace_append]
    · cases fs with
      | nil => simp [psm_groups, tsm_groups, apply_trace_nil]
      | cons fld rest =>
        rw [psm_groups, tsm_groups]
        cases hw : fld.which with
        | slot o t v => exact ihg _ _ _
        | group typeId =>
          cases hc : capitalize_first_letter fld.name with
          | none => rfl
          | some name =>
            dsimp only
            rw [ihp]
            cases h1 : trace_scope_map nm f (names ++ [name]) typeId with
            | none => rfl
            | some t1 =>
              simp only [Option.map_some']
              rw [ihg]
              cases h2 : tsm_groups nm f names rest with
              | none => rfl
              | some t2 => simp [apply_trace_append]

/-- The ids a visit trace writes. -/
def trace_ids (t : List Visit) : List Nat := t.map (fun v => v.2)

theorem apply_trace_not_mem (t : List Visit) :
    ∀ (sm : ScopeMap) (p : Nat), p ∉ trace_ids t → apply_trace sm t p = sm p := by
  induction t with
  | nil => intro sm p _; rfl
  | cons v rest ih =>
    intro sm p hp
    simp only [trace_ids, List.map_cons, List.mem_cons] at hp
    push_neg at hp
    rw [apply_trace_cons, ih _ _ (by simpa [trace_ids] using hp.2)]
    simp [sm_insert, hp.1]

theorem apply_trace_mem_nodup (t : List Visit) :
    ∀ (sm : ScopeMap) (pp : List String) (p : Nat),
      (trace_ids t).Nodup → (pp, p) ∈ t → apply_trace sm t p = some pp := by
  induction t with
  | nil => intro sm pp p _ h; cases h
  | cons v rest ih =>
    intro sm pp p hnd hmem
    simp only [trace_ids, List.map_cons, List.nodup_cons] at hnd
    rcases List.mem_cons.mp hmem with heq | htail
    · subst heq
      rw [apply_trace_cons, apply_trace_not_mem _ _ _ (by simpa [trace_ids] using hnd.1)]
      simp [sm_insert]
    · exact ih _ _ _ (by simpa [trace_ids] using hnd.2) htail

/-- A successful walk records the seed `(path, id)` as its first insertion. -/
theorem trace_head (nm : NodeMap) (fuel : Nat) (scope_names : List String) (node_id : Nat)
    (t : List Visit) (h : trace_scope_map nm fuel scope_names node_id = some t) :
    ∃ rest, t = (scope_names, node_id) :: rest := by
  cases fuel with
  | zero => simp [trace_scope_map] at h
  | succ f =>
    rw [trace_scope_map] at h
    cases hfind : nm_find nm node_id with
    | none => simp only [hfind] at h; exact ⟨[], by simpa using h.symm⟩
    | some node =>
      simp only [hfind] at h
      cases hn : tsm_nested nm f scope_names node.nestedNodes with
      | none => simp only [hn] at h; exact absurd h (by simp)
      | some t1 =>
        simp only [hn] at h
        cases hw : node.which with
        | structNode st =>
          simp only [hw] at h
          cases hg : tsm_groups nm f scope_names st.fields with
          | none => simp only [hg] at h; exact absurd h (by simp)
          | some t2 => simp only [hg] at h; exact ⟨t1 ++ t2, by simpa using h.symm⟩
        | file => simp only [hw] at h; exact ⟨t1, by simpa using h.symm⟩
        | enumNode es => simp only [hw] at h; exact ⟨t1, by simpa using h.symm⟩
        | interfaceNode es => simp only [hw] at h; exact ⟨t1, by simpa using h.symm⟩
        | constNode => simp only [hw] at h; exact ⟨t1, by simpa using h.symm⟩
        | annotationNode => simp only [hw] at h; exact ⟨t1, by simpa using h.symm⟩

/-- A successful nested-loop trace contains, for every child of the list, the
visit of that child with the parent path extended by the child's name. -/
theorem tsm_nested_child_mem (nm : NodeMap) :
    ∀ fuel scope_names ns t, tsm_nested nm fuel scope_names ns = some t →
      ∀ nn ∈ ns, (scope_names ++ [nn.name], nn.id) ∈ t := by
  intro fuel
  induction fuel with
  | zero => intro names ns t h; simp [tsm_nested] at h
  | succ f ih =>
    intro names ns t h nn hnn
    cases ns with
    | nil => cases hnn
    | cons nn0 rest =>
      rw [tsm_nested] at h
      cases h1 : trace_scope_map nm f (names ++ [nn0.name]) nn0.id with
      | none => simp only [h1] at h; exact absurd h (by simp)
      | some t1 =>
        simp only [h1] at h
        cases h2 : tsm_nested nm f names rest with
        | none => simp only [h2] at h; exact absurd h (by simp)
        | some t2 =>
          simp only [h2] at h
          obtain rfl : t1 ++ t2 = t := by simpa using h
          rcases List.mem_cons.mp hnn with heq | htail
          · subst heq
            obtain ⟨r, hr⟩ := trace_head nm f _ _ _ h1
            exact List.mem_append_left _ (hr ▸ List.mem_cons_self _ _)
          · exact List.mem_append_right _ (ih names rest t2 h2 nn htail)

/-- Every element of a successful nested-loop trace lies inside the trace of
one of the children, at strictly smaller fuel. -/
theorem tsm_nested_mem_split (nm : NodeMap) :
    ∀ fuel scope_names ns t, tsm_nested nm fuel scope_names ns = some t →
      ∀ v ∈ t, ∃ f' names' nid' ct, f' < fuel ∧
        trace_scope_map nm f' names' nid' = some ct ∧ v ∈ ct ∧ ∀ x ∈ ct, x ∈ t := by
  intro fuel
  induction fuel with
  | zero => intro names ns t h; simp [tsm_nested] at h
  | succ f ih =>
    intro names ns t h v hv
    cases ns with
    | nil =>
      rw [tsm_nested] at h
      obtain rfl : ([] : List Visit) = t := by simpa using h
      cases hv
    | cons nn0 rest =>
      rw [tsm_nested] at h
      cases h1 : trace_scope_map nm f (names ++ [nn0.name]) nn0.id with
      | none => simp only [h1] at h; exact absurd h (by simp)
      | some t1 =>
        simp only [h1] at h
        cases h2 : tsm_nested nm f names rest with
        | none => simp only [h2] at h; exact absurd h (by simp)
        | some t2 =>
          simp only [h2] at h
          obtain rfl : t1 ++ t2 = t := by simpa using h
          rcases List.mem_append.mp hv with hv1 | hv2
          · exact ⟨f, names ++ [nn0.name], nn0.id, t1, Nat.lt_succ_self f, h1, hv1,
              fun x hx => List.mem_append_left _ hx⟩
          · obtain ⟨f', names', nid', ct, hf, hct, hvin, hsub⟩ := ih names rest t2 h2 v hv2
            exact ⟨f', names', nid', ct, Nat.lt_succ_of_lt hf, hct, hvin,
              fun x hx => List.mem_append_right _ (hsub x hx)⟩

/-- Every element of a successful group-loop trace lies inside the trace of
one of the field groups, at strictly smaller fuel. -/
theorem tsm_groups_mem_split (nm : NodeMap) :
    ∀ fuel scope_names fs t, tsm_groups nm fuel scope_names fs = some t →
      ∀ v ∈ t, ∃ f' names' nid' ct, f' < fuel ∧
        trace_scope_map nm f' names' nid' = some ct ∧ v ∈ ct ∧ ∀ x ∈ ct, x ∈ t := by
  intro fuel
  induction fuel with
  | zero => intro names fs t h; simp [tsm_groups] at h
  | succ f ih =>
    intro names fs t h v hv
    cases fs with
    | nil =>
      rw [tsm_groups] at h
      obtain rfl : ([] : List Visit) = t := by simpa using h
      cases hv
    | cons fld rest =>
      rw [tsm_groups] at h
      cases hw : fld.which with
      | slot o ty dv =>
        simp only [hw] at h
        obtain ⟨f', names', nid', ct, hf, hct, hvin, hsub⟩ := ih names rest t h v hv
        exact ⟨f', names', nid', ct, Nat.lt_succ_of_lt hf, hct, hvin, hsub⟩
      | group typeId =>
        simp only [hw] at h
        cases hc : capitalize_first_letter fld.name with
        | none => simp only [hc] at h; exact absurd h (by simp)
        | some name =>
          simp only [hc] at h
          cases h1 : trace_scope_map nm f (names ++ [name]) typeId with
          | none => simp only [h1] at h; exact absurd h (by simp)
          | some t1 =>
            simp only [h1] at h
            cases h2 : tsm_groups nm f names rest with
            | none => simp only [h2] at h; exact absurd h (by simp)
            | some t2 =>
              simp only [h2] at h
              obtain rfl : t1 ++ t2 = t := by simpa using h
              rcases List.mem_append.mp hv with hv1 | hv2
              · exact ⟨f, names ++ [name], typeId, t1, Nat.lt_succ_self f, h1, hv1,
                  fun x hx => List.mem_append_left _ hx⟩
              · obtain ⟨f', names', nid', ct, hf, hct, hvin, hsub⟩ := ih names rest t2 h2 v hv2
                exact ⟨f', names', nid', ct, Nat.lt_succ_of_lt hf, hct, hvin,
                  fun x hx => List.mem_append_right _ (hsub x hx)⟩

/-- Closure of a successful visit trace: whenever the trace visits a node `p`
under path `pp` and `p` is present in the node index, the trace also visits
every `nestedNodes` child of `p` under `pp` extended by the child's name. -/
theorem trace_closed (nm : NodeMap) :
    ∀ fuel, ∀ scope_names node_id t,
      trace_scope_map nm fuel scope_names node_id = some t →
      ∀ pp p, (pp, p) ∈ t → ∀ node, nm_find nm p = some node →
        ∀ nn ∈ node.nestedNodes, (pp ++ [nn.name], nn.id) ∈ t := by
  intro fuel
  induction fuel using Nat.strong_induction_on with
  | _ fuel ih =>
    intro names nid t h pp p hmem node hfind nn hnn
    cases fuel with
    | zero => simp [trace_scope_map] at h
    | succ f =>
      rw [trace_scope_map] at h
      cases hf : nm_find nm nid with
      | none =>
        simp only [hf] at h
        obtain rfl : [(names, nid)] = t := by simpa using h
        rcases List.mem_singleton.mp hmem with hpair
        obtain ⟨rfl, rfl⟩ : pp = names ∧ p = nid := by
          exact ⟨congrArg Prod.fst hpair, congrArg Prod.snd hpair⟩
        simp only [hfind] at hf; cases hf
      | some nd =>
        simp only [hf] at h
        cases hn : tsm_nested nm f names nd.nestedNodes with
        | none => simp only [hn] at h; exact absurd h (by simp)
        | some t1 =>
          simp only [hn] at h
          have main : ∀ t2rest, t = (names, nid) :: (t1 ++ t2rest) →
              (∀ v ∈ t2rest, ∃ f' names' nid' ct, f' < f ∧
                trace_scope_map nm f' names' nid' = some ct ∧ v ∈ ct ∧ ∀ x ∈ ct, x ∈ t2rest) →
              (pp ++ [nn.name], nn.id) ∈ t := by
            intro t2rest ht hsplit2
            subst ht
            rcases List.mem_cons.mp hmem with hpair | hrest
            · obtain ⟨rfl, rfl⟩ : pp = names ∧ p = nid :=
                ⟨congrArg Prod.fst hpair, congrArg Prod.snd hpair⟩
              simp only [hfind] at hf
              obtain rfl : nd = node := by cases hf; rfl
              exact List.mem_cons_of_mem _
                (List.mem_append_left _ (tsm_nested_child_mem nm f _ _ t1 hn nn hnn))
            · rcases List.mem_append.mp hrest with h1 | h2
              · obtain ⟨f', names', nid', ct, hflt, hct, hvin, hsub⟩ :=
                  tsm_nested_mem_split nm f names _ t1 hn _ h1
                have := ih f' (Nat.lt_succ_of_lt hflt) names' nid' ct hct pp p hvin node hfind nn hnn
                exact List.mem_cons_of_mem _ (List.mem_append_left _ (hsub _ this))
              · obtain ⟨f', names', nid', ct, hflt, hct, hvin, hsub⟩ := hsplit2 _ h2
                have := ih f' (Nat.lt_succ_of_lt hflt) names' nid' ct hct pp p hvin node hfind nn hnn
                exact List.mem_cons_of_mem _ (List.mem_append_right _ (hsub _ this))
          cases hw : nd.which with
          | structNode st =>
            simp only [hw] at h
            cases hg : tsm_groups nm f names st.fields with
            | none => simp only [hg] at h; exact absurd h (by simp)
            | some t2 =>
              simp only [hg] at h
              have ht : t = (names, nid) :: (t1 ++ t2) := by simpa using h.symm
              exact main t2 ht (fun v hv => tsm_groups_mem_split nm f names st.fields t2 hg v hv)
          | file =>
            simp only [hw] at h
            have ht : t = (names, nid) :: (t1 ++ []) := by simpa using h.symm
            exact main [] ht (fun v hv => by cases hv)
          | enumNode es =>
            simp only [hw] at h
            have ht : t = (names, nid) :: (t1 ++ []) := by simpa using h.symm
            exact main [] ht (fun v hv => by cases hv)
          | interfaceNode es =>
            simp only [hw] at h
            have ht : t = (names, nid) :: (t1 ++ []) := by simpa using h.symm
            exact main [] ht (fun v hv => by cases hv)
          | constNode =>
            simp only [hw] at h
            have ht : t = (names, nid) :: (t1 ++ []) := by simpa using h.symm
            exact main [] ht (fun v hv => by cases hv)
          | annotationNode =>
            simp only [hw] at h
            have ht : t = (names, nid) :: (t1 ++ []) := by simpa using h.symm
            exact main [] ht (fun v hv => by cases hv)

/-! ## Driver fragment: per-file scope-map seeding in `main` (codegen.rs:1447-1469)

For each requested file, `main` first walks every import with the seed path
`["::<importstem>_capnp"]` (codegen.rs:1453-1460), then walks the file's root
with the seed path `["::<filestem>_capnp"]` — `root_name` is the stem with
`-` replaced by `_` plus `_capnp`, and the seed pushed into the scope map is
`root_mod = format!("::{}", root_name)` (codegen.rs:1462-1469).  Path-stem
extraction is external (driver plumbing), so stems are taken as inputs.
-/

/-- `str::replace("-", "_")` on the filename stem (single-character pattern,
modelled as a character map). -/
def replace_dashes (s : String) : String :=
  String.mk (s.data.map fun c => if c = '-' then '_' else c)

/-- The import seed segment `format!("::{}_capnp", stem.replace("-", "_"))`
(codegen.rs:1457-1458). -/
def import_root_name (stem : String) : String :=
  "::" ++ replace_dashes stem ++ "_capnp"

/-- `root_name` for the requested file (codegen.rs:1462-1463). -/
def requested_root_name (stem : String) : String :=
  replace_dashes stem ++ "_capnp"

/-- `root_mod = format!("::{}", root_name)` (codegen.rs:1467) — the seed
segment actually inserted into the scope map for the requested file. -/
def requested_root_mod (stem : String) : String :=
  "::" ++ requested_root_name stem

/-- A requested file of the `CodeGeneratorRequest`: root node id, filename
stem, and the (stem, root id) of each import. -/
structure RequestedFile where
  id : Nat
  stem : String
  imports : List (String × Nat)

/-- The import loop of `main` (codegen.rs:1453-1460). -/
def populate_imports (nm : NodeMap) (fuel : Nat) :
    List (String × Nat) → ScopeMap → Option ScopeMap
  | [], sm => some sm
  | imp :: rest, sm =>
    match populate_scope_map nm fuel sm [import_root_name imp.1] imp.2 with
    | none => none
    | some sm => populate_imports nm fuel rest sm

/-- The scope-map population `main` performs for one requested file:
imports first, then the file's own root (codegen.rs:1447-1469). -/
def populate_for_file (nm : NodeMap) (fuel : Nat) (f : RequestedFile) (sm : ScopeMap) :
    Option ScopeMap :=
  match populate_imports nm fuel f.imports sm with
  | none => none
  | some sm => populate_scope_map nm fuel sm [requested_root_mod f.stem] f.id

/-! ## Emitter helpers (codegen.rs:19-71, 255-277) -/

/-- `element_size_str` (codegen.rs:19-31). -/
def element_size_str (es : ElementSize) : String :=
  match es with
  | .empty => "Void"
  | .bit => "Bit"
  | .byte => "Byte"
  | .twoBytes => "TwoBytes"
  | .fourBytes => "FourBytes"
  | .eightBytes => "EightBytes"
  | .pointer => "Pointer"
  | .inlineComposite => "InlineComposite"

/-- `element_size` (codegen.rs:33-51); `fail!("not primitive")` on
non-primitive types. -/
def element_size (typ : Ty) : Option ElementSize :=
  match typ with
  | .void => some .empty
  | .bool => some .bit
  | .int8 => some .byte
  | .int16 => some .twoBytes
  | .int32 => some .fourBytes
  | .int64 => some .eightBytes
  | .uint8 => some .byte
  | .uint16 => some .twoBytes
  | .uint32 => some .fourBytes
  | .uint64 => some .eightBytes
  | .float32 => some .fourBytes
  | .float64 => some .eightBytes
  | _ => none

/-- `prim_type_str` (codegen.rs:53-71); `fail!("not primitive")` on
non-primitive types (enums map to `u16`). -/
def prim_type_str (typ : Ty) : Option String :=
  match typ with
  | .void => some "()"
  | .bool => some "bool"
  | .int8 => some "i8"
  | .int16 => some "i16"
  | .int32 => some "i32"
  | .int64 => some "i64"
  | .uint8 => some "u8"
  | .uint16 => some "u16"
  | .uint32 => some "u32"
  | .uint64 => some "u64"
  | .float32 => some "f32"
  | .float64 => some "f64"
  | .enum _ => some "u16"
  | _ => none

/-- `prim_default` (codegen.rs:255-277): `some none` when the default is the
type's zero (no mask emitted), `some (some s)` with the printed mask
otherwise, `none` (= `fail!()`) on a non-primitive value. -/
def prim_default (value : Val) : Option (Option String) :=
  match value with
  | .bool b => if b then some (some "true") else some none
  | .int8 i => if i = 0 then some none else some (some (toString i))
  | .int16 i => if i = 0 then some none else some (some (toString i))
  | .int32 i => if i = 0 then some none else some (some (toString i))
  | .int64 i => if i = 0 then some none else some (some (toString i))
  | .uint8 n => if n = 0 then some none else some (some (toString n))
  | .uint16 n => if n = 0 then some none else some (some (toString n))
  | .uint32 n => if n = 0 then some none else some (some (toString n))
  | .uint64 n => if n = 0 then some none else some (some (toString n))
  | .float32 f => if f = 0 then some none else some (some (toString f ++ "f32"))
  | .float64 f => if f = 0 then some none else some (some (toString f ++ "f64"))
  | _ => none

/-! ## Getter emission: `list_list_type_param`, `getter_text` (codegen.rs:210-253, 279-443) -/

/-- `scope_map[id].connect("::")` — the fully qualified module path of a node;
panics (`none`) when the id is absent from the scope map. -/
def sm_mod (scope_map : ScopeMap) (id : Nat) : Option String :=
  (scope_map id).map (fun scope => String.intercalate "::" scope)

/-- The `member` selector of `getter_text`: the handle field read from. -/
def member_str (is_reader : Bool) : String :=
  if is_reader then "reader" else "builder"

/-- The `module` selector of `getter_text`. -/
def module_str (is_reader : Bool) : String :=
  if is_reader then "Reader" else "Builder"

/-- The `module_with_var` selector of `getter_text`. -/
def module_with_var_str (is_reader : Bool) : String :=
  if is_reader then "Reader<'a>" else "Builder<'a>"

/-- `list_list_type_param` (codegen.rs:210-253): the recursively built type
parameter for list-of-list accessors; fails on `List(AnyPointer)` and
`List(Interface)` elements. -/
def list_list_type_param (scope_map : ScopeMap) (typ : Ty) (is_reader : Bool)
    (lifetime_name : String) : Option String :=
  let module := module_str is_reader
  match typ with
  | .enum typeId =>
    (sm_mod scope_map typeId).map fun the_mod =>
      "enum_list::" ++ module ++ "<" ++ lifetime_name ++ "," ++ the_mod ++ "::Reader>"
  | .text =>
    some ("text_list::" ++ module ++ "<" ++ lifetime_name ++ ">")
  | .data =>
    some ("data_list::" ++ module ++ "<" ++ lifetime_name ++ ">")
  | .structTy typeId =>
    (sm_mod scope_map typeId).map fun the_mod =>
      "struct_list::" ++ module ++ "<" ++ lifetime_name ++ ", " ++ the_mod ++ "::" ++ module
        ++ "<" ++ lifetime_name ++ ">>"
  | .list elementType =>
    (list_list_type_param scope_map elementType is_reader lifetime_name).map fun inner =>
      "list_list::" ++ module ++ "<" ++ lifetime_name ++ ", " ++ inner ++ ">"
  | .anyPointer => none
  | .interface _ => none
  | prim =>
    (prim_type_str prim).map fun type_str =>
      "primitive_list::" ++ module ++ "<" ++ lifetime_name ++ ", " ++ type_str ++ ">"

/-- The `common_case` helper of `getter_text` (codegen.rs:429-440): unmasked
data-field read when the default is the type's zero, masked read with the
`{default}{typ}` literal otherwise. -/
def getter_common_case (typ member : String) (offset : Nat) (default : Int) :
    String × FormattedText :=
  (typ,
    if default = 0 then
      .Line ("self." ++ member ++ ".get_data_field::<" ++ typ ++ ">(" ++ toString offset ++ ")")
    else
      .Line ("self." ++ member ++ ".get_data_field_mask::<" ++ typ ++ ">(" ++ toString offset
        ++ ", " ++ toString default ++ typ ++ ")"))

/-- `getter_text` (codegen.rs:279-443): the accessor's result type and body
for one field, on the Reader (`is_reader = true`) or Builder side.  `none`
models the `fail!` calls (unrecognized or mismatching type/default,
unsupported list elements). -/
def getter_text (scope_map : ScopeMap) (field : Field) (is_reader : Bool) :
    Option (String × FormattedText) :=
  match field.which with
  | .group typeId =>
    (sm_mod scope_map typeId).map fun the_mod =>
      if is_reader then
        (the_mod ++ "::Reader<'a>", .Line ("FromStructReader::new(self.reader)"))
      else
        (the_mod ++ "::Builder<'a>", .Line ("FromStructBuilder::new(self.builder)"))
  | .slot offset typ default =>
    let member := member_str is_reader
    let module := module_str is_reader
    let module_with_var := module_with_var_str is_reader
    match typ, default with
    | .void, .void => some ("()", .Line ("()"))
    | .bool, .bool b =>
      if b then
        some ("bool",
          .Line ("self." ++ member ++ ".get_bool_field_mask(" ++ toString offset ++ ", true)"))
      else
        some ("bool",
          .Line ("self." ++ member ++ ".get_bool_field(" ++ toString offset ++ ")"))
    | .int8, .int8 i => some (getter_common_case "i8" member offset i)
    | .int16, .int16 i => some (getter_common_case "i16" member offset i)
    | .int32, .int32 i => some (getter_common_case "i32" member offset i)
    | .int64, .int64 i => some (getter_common_case "i64" member offset i)
    | .uint8, .uint8 n => some (getter_common_case "u8" member offset (Int.ofNat n))
    | .uint16, .uint16 n => some (getter_common_case "u16" member offset (Int.ofNat n))
    | .uint32, .uint32 n => some (getter_common_case "u32" member offset (Int.ofNat n))
    | .uint64, .uint64 n => some (getter_common_case "u64" member offset (Int.ofNat n))
    | .float32, .float32 f => some (getter_common_case "f32" member offset f)
    | .float64, .float64 f => some (getter_common_case "f64" member offset f)
    | .text, _ =>
      some ("text::" ++ module_with_var,
        .Line ("self." ++ member ++ ".get_pointer_field(" ++ toString offset
          ++ ").get_text(std::ptr::null(), 0)"))
    | .data, _ =>
      some ("data::" ++ module_with_var,
        .Line ("self." ++ member ++ ".get_pointer_field(" ++ toString offset
          ++ ").get_data(std::ptr::null(), 0)"))
    | .list elementType, _ =>
      match elementType with
      | .structTy typeId =>
        (sm_mod scope_map typeId).map fun the_mod =>
          if is_reader then
            ("struct_list::" ++ module ++ "<'a," ++ the_mod ++ "::" ++ module ++ "<'a>>",
              .Line ("struct_list::" ++ module ++ "::new(self." ++ member
                ++ ".get_pointer_field(" ++ toString offset ++ ").get_list(" ++ the_mod
                ++ "::STRUCT_SIZE.preferred_list_encoding, std::ptr::null()))"))
          else
            ("struct_list::" ++ module ++ "<'a," ++ the_mod ++ "::" ++ module ++ "<'a>>",
              .Line ("struct_list::" ++ module ++ "::new(self." ++ member
                ++ ".get_pointer_field(" ++ toString offset ++ ").get_struct_list(" ++ the_mod
                ++ "::STRUCT_SIZE, std::ptr::null()))"))
      | .enum typeId =>
        (sm_mod scope_map typeId).map fun the_mod =>
          ("enum_list::" ++ module ++ "<'a," ++ the_mod ++ "::Reader>",
            .Line ("enum_list::" ++ module ++ "::new(self." ++ member
              ++ ".get_pointer_field(" ++ toString offset
              ++ ").get_list(layout::TwoBytes, std::ptr::null()))"))
      | .list inner =>
        (list_list_type_param scope_map inner is_reader "'a").map fun type_param =>
          ("list_list::" ++ module ++ "<'a," ++ type_param ++ ">",
            .Line ("list_list::" ++ module ++ "::new(self." ++ member
              ++ ".get_pointer_field(" ++ toString offset
              ++ ").get_list(layout::Pointer, std::ptr::null()))"))
      | .text =>
        some ("text_list::" ++ module ++ "<'a>",
          .Line ("text_list::" ++ module ++ "::new(self." ++ member
            ++ ".get_pointer_field(" ++ toString offset
            ++ ").get_list(layout::Pointer, std::ptr::null()))"))
      | .data =>
        some ("data_list::" ++ module ++ "<'a>",
          .Line ("data_list::" ++ module ++ "::new(self." ++ member
            ++ ".get_pointer_field(" ++ toString offset
            ++ ").get_list(layout::Pointer, std::ptr::null()))"))
      | .interface _ => none
      | .anyPointer => none
      | prim =>
        match prim_type_str prim, element_size prim with
        | some type_str, some es =>
          some ("primitive_list::" ++ module ++ "<'a," ++ type_str ++ ">",
            .Line ("primitive_list::" ++ module ++ "::new(self." ++ member
              ++ ".get_pointer_field(" ++ toString offset ++ ").get_list(layout::"
              ++ element_size_str es ++ ", std::ptr::null()))"))
        | _, _ => none
    | .enum typeId, _ =>
      (sm_mod scope_map typeId).map fun the_mod =>
        ("Option<" ++ the_mod ++ "::Reader>",
          .Branch [.Line ("FromPrimitive::from_u16(self." ++ member
            ++ ".get_data_field::<u16>(" ++ toString offset ++ "))")])
    | .structTy typeId, _ =>
      (sm_mod scope_map typeId).map fun the_mod =>
        let middle_arg := if is_reader then "" else the_mod ++ "::STRUCT_SIZE,"
        (the_mod ++ "::" ++ module_with_var,
          .Line ("FromStruct" ++ module ++ "::new(self." ++ member ++ ".get_pointer_field("
            ++ toString offset ++ ").get_struct(" ++ middle_arg ++ " std::ptr::null()))"))
    | .interface typeId, _ =>
      (sm_mod scope_map typeId).map fun the_mod =>
        (the_mod ++ "::Client",
          .Line ("FromClientHook::new(self." ++ member ++ ".get_pointer_field("
            ++ toString offset ++ ").get_capability())"))
    | .anyPointer, _ =>
      some ("any_pointer::" ++ module ++ "<'a>",
        .Line ("any_pointer::" ++ module ++ "::new(self." ++ member ++ ".get_pointer_field("
          ++ toString offset ++ "))"))
    | _, _ => none

/-! ## Group clearing: `zero_fields_of_group` (codegen.rs:445-506) -/

/-- The clearing statement for one slot (codegen.rs:465-498): `some none` for
`Void` (nothing emitted), the width-correct zero write for booleans and
primitives/enums, the pointer clear for pointer-typed slots.  The outer
`none` is the `fail!()` on an unrecognized type (not representable here). -/
def zero_line_of_slot (offset : Nat) (typ : Ty) : Option (Option FormattedText) :=
  match typ with
  | .void => some none
  | .bool =>
    some (some (.Line ("self.builder.set_bool_field(" ++ toString offset ++ ", false);")))
  | .structTy _ | .list _ | .text | .data | .anyPointer | .interface _ =>
    some (some (.Line ("self.builder.get_pointer_field(" ++ toString offset ++ ").clear();")))
  | prim =>
    (prim_type_str prim).map fun type_str =>
      some (.Line ("self.builder.set_data_field::<" ++ type_str ++ ">("
        ++ toString offset ++ ", 0);"))

mutual
/-- `zero_fields_of_group` (codegen.rs:445-506): the statements clearing every
slot belonging to a group (including its own discriminant), de-duplicated by
emitted text.  Panics (`none`) when the node is absent or not a struct. -/
def zero_fields_of_group (nm : NodeMap) : Nat → Nat → Option FormattedText
  | 0, _ => none
  | fuel + 1, node_id =>
    match nm_find nm node_id with
    | none => none
    | some node =>
      match node.which with
      | .structNode st =>
        let acc : List FormattedText :=
          if st.discriminantCount ≠ 0 then
            [.Line ("self.builder.set_data_field::<u16>("
              ++ toString st.discriminantOffset ++ ", 0);")]
          else []
        (zfg_fields nm fuel st.fields acc).map fun result => .Branch result
      | _ => none

/-- The field loop of `zero_fields_of_group`, threading the `result` vector
(dedup via `result.contains`). -/
def zfg_fields (nm : NodeMap) : Nat → List Field → List FormattedText →
    Option (List FormattedText)
  | 0, _, _ => none
  | _ + 1, [], acc => some acc
  | fuel + 1, f :: rest, acc =>
    match f.which with
    | .group typeId =>
      match zero_fields_of_group nm fuel typeId with
      | none => none
      | some sub => zfg_fields nm fuel rest (acc ++ [sub])
    | .slot offset typ _ =>
      match zero_line_of_slot offset typ with
      | none => none
      | some none => zfg_fields nm fuel rest acc
      | some (some line) =>
        zfg_fields nm fuel rest (if acc.contains line then acc else acc ++ [line])
end

/-! ## Setter emission: `generate_setter` (codegen.rs:508-760)

The Rust function initializes `setter_interior` / `initter_interior`, pushes
the discriminant write into both when the field is a union member
(codegen.rs:521-531), computes the field-specific pushes and accessor types
in the big `match` (codegen.rs:535-736), and assembles the `set_`/`init_`
functions (codegen.rs:737-759).  `setter_parts_core` is the big match — it
returns the pushes performed after the discriminant write; `setter_parts`
adds the discriminant prefix; `generate_setter` is the final assembly.
-/

/-- The locals of `generate_setter` after the field-specific `match`. -/
structure SetterCore where
  setter_extra : List FormattedText
  initter_extra : List FormattedText
  setter_param : String
  initter_params : List String
  setter_lifetime_param : String
  reader_type : Option String
  builder_type : Option String
deriving DecidableEq

/-- The `common_case` helper of `generate_setter` (codegen.rs:548-562). -/
def setter_common_case (typ : String) (offset : Nat) (default : Val) : Option SetterCore :=
  (prim_default default).map fun mask =>
    { setter_extra :=
        match mask with
        | none =>
          [.Line ("self.builder.set_data_field::<" ++ typ ++ ">("
            ++ toString offset ++ ", value);")]
        | some s =>
          [.Line ("self.builder.set_data_field_mask::<" ++ typ ++ ">("
            ++ toString offset ++ ", value, " ++ s ++ ");")],
      initter_extra := [], setter_param := "value", initter_params := [],
      setter_lifetime_param := "", reader_type := some typ, builder_type := none }

/-- The field-specific `match` of `generate_setter` (codegen.rs:535-736):
everything pushed and decided after the discriminant write. -/
def setter_parts_core (nm : NodeMap) (scope_map : ScopeMap) (fuel : Nat)
    (field : Field) : Option SetterCore :=
  match field.which with
  | .group typeId =>
    match sm_mod scope_map typeId with
    | none => none
    | some the_mod =>
      (zero_fields_of_group nm fuel typeId).map fun zeroed =>
        { setter_extra := [],
          initter_extra := [zeroed, .Line ("FromStructBuilder::new(self.builder)")],
          setter_param := "value", initter_params := [], setter_lifetime_param := "",
          reader_type := none, builder_type := some (the_mod ++ "::Builder<'a>") }
  | .slot offset typ default =>
    match typ with
    | .void =>
      some { setter_extra := [], initter_extra := [], setter_param := "_value",
             initter_params := [], setter_lifetime_param := "",
             reader_type := some "()", builder_type := none }
    | .bool =>
      (prim_default default).map fun mask =>
        { setter_extra :=
            match mask with
            | none =>
              [.Line ("self.builder.set_bool_field(" ++ toString offset ++ ", value);")]
            | some s =>
              [.Line ("self.builder.set_bool_field_mask(" ++ toString offset
                ++ ", value, " ++ s ++ ");")],
          initter_extra := [], setter_param := "value", initter_params := [],
          setter_lifetime_param := "", reader_type := some "bool", builder_type := none }
    | .int8 => setter_common_case "i8" offset default
    | .int16 => setter_common_case "i16" offset default
    | .int32 => setter_common_case "i32" offset default
    | .int64 => setter_common_case "i64" offset default
    | .uint8 => setter_common_case "u8" offset default
    | .uint16 => setter_common_case "u16" offset default
    | .uint32 => setter_common_case "u32" offset default
    | .uint64 => setter_common_case "u64" offset default
    | .float32 => setter_common_case "f32" offset default
    | .float64 => setter_common_case "f64" offset default
    | .text =>
      some { setter_extra :=
               [.Line ("self.builder.get_pointer_field(" ++ toString offset
                 ++ ").set_text(value);")],
             initter_extra :=
               [.Line ("self.builder.get_pointer_field(" ++ toString offset
                 ++ ").init_text(size)")],
             setter_param := "value", initter_params := ["size : uint"],
             setter_lifetime_param := "",
             reader_type := some "text::Reader", builder_type := some "text::Builder<'a>" }
    | .data =>
      some { setter_extra :=
               [.Line ("self.builder.get_pointer_field(" ++ toString offset
                 ++ ").set_data(value);")],
             initter_extra :=
               [.Line ("self.builder.get_pointer_field(" ++ toString offset
                 ++ ").init_data(size)")],
             setter_param := "value", initter_params := ["size : uint"],
             setter_lifetime_param := "",
             reader_type := some "data::Reader", builder_type := some "data::Builder<'a>" }
    | .list elementType =>
      let set_line : FormattedText :=
        .Line ("self.builder.get_pointer_field(" ++ toString offset
          ++ ").set_list(&value.reader)")
      match elementType with
      | .enum typeId =>
        (sm_mod scope_map typeId).map fun the_mod =>
          let type_str := the_mod ++ "::Reader"
          { setter_extra := [set_line],
            initter_extra :=
              [.Line ("enum_list::Builder::<'a, " ++ type_str ++ ">::new("),
               .Indent (.Line ("self.builder.get_pointer_field(" ++ toString offset
                 ++ ").init_list(layout::TwoBytes,size)")),
               .Line (")")],
            setter_param := "value", initter_params := ["size : uint"],
            setter_lifetime_param := "",
            reader_type := some ("enum_list::Reader<'a," ++ type_str ++ ">"),
            builder_type := some ("enum_list::Builder<'a," ++ type_str ++ ">") }
      | .structTy typeId =>
        (sm_mod scope_map typeId).map fun the_mod =>
          { setter_extra := [set_line],
            initter_extra :=
              [.Line ("struct_list::Builder::<'a, " ++ the_mod ++ "::Builder<'a>>::new("),
               .Indent (.Line ("self.builder.get_pointer_field(" ++ toString offset
                 ++ ").init_struct_list(size, " ++ the_mod ++ "::STRUCT_SIZE))"))],
            setter_param := "value", initter_params := ["size : uint"],
            setter_lifetime_param := "",
            reader_type := some ("struct_list::Reader<'a," ++ the_mod ++ "::Reader<'a>>"),
            builder_type := some ("struct_list::Builder<'a," ++ the_mod ++ "::Builder<'a>>") }
      | .text =>
        some { setter_extra := [set_line],
               initter_extra :=
                 [.Line ("text_list::Builder::<'a>::new(self.builder.get_pointer_field("
                   ++ toString offset ++ ").init_list(layout::Pointer, size))")],
               setter_param := "value", initter_params := ["size : uint"],
               setter_lifetime_param := "",
               reader_type := some "text_list::Reader",
               builder_type := some "text_list::Builder<'a>" }
      | .data =>
        some { setter_extra := [set_line],
               initter_extra :=
                 [.Line ("data_list::Builder::<'a>::new(self.builder.get_pointer_field("
                   ++ toString offset ++ ").init_list(layout::Pointer, size))")],
               setter_param := "value", initter_params := ["size : uint"],
               setter_lifetime_param := "",
               reader_type := some "data_list::Reader",
               builder_type := some "data_list::Builder<'a>" }
      | .list inner =>
        match list_list_type_param scope_map inner false "'a",
              list_list_type_param scope_map inner true "'b" with
        | some type_param, some reader_param =>
          some { setter_extra := [set_line],
                 initter_extra :=
                   [.Line ("list_list::Builder::<'a," ++ type_param
                     ++ ">::new(self.builder.get_pointer_field(" ++ toString offset
                     ++ ").init_list(layout::Pointer,size))")],
                 setter_param := "value", initter_params := ["size : uint"],
                 setter_lifetime_param := "<'b>",
                 reader_type := some ("list_list::Reader<'b, " ++ reader_param ++ ">"),
                 builder_type := some ("list_list::Builder<'a, " ++ type_param ++ ">") }
        | _, _ => none
      | .anyPointer => none
      | .interface _ => none
      | prim =>
        match prim_type_str prim, element_size prim with
        | some type_str, some es =>
          some { setter_extra := [set_line],
                 initter_extra :=
                   [.Line ("primitive_list::Builder::<'a," ++ type_str ++ ">::new("),
                    .Indent (.Line ("self.builder.get_pointer_field(" ++ toString offset
                      ++ ").init_list(layout::" ++ element_size_str es ++ ",size)")),
                    .Line (")")],
                 setter_param := "value", initter_params := ["size : uint"],
                 setter_lifetime_param := "",
                 reader_type := some ("primitive_list::Reader<'a," ++ type_str ++ ">"),
                 builder_type := some ("primitive_list::Builder<'a," ++ type_str ++ ">") }
        | _, _ => none
    | .enum typeId =>
      (sm_mod scope_map typeId).map fun the_mod =>
        { setter_extra :=
            [.Line ("self.builder.set_data_field::<u16>(" ++ toString offset
              ++ ", value as u16)")],
          initter_extra := [], setter_param := "value", initter_params := [],
          setter_lifetime_param := "",
          reader_type := some (the_mod ++ "::Reader"), builder_type := none }
    | .structTy typeId =>
      (sm_mod scope_map typeId).map fun the_mod =>
        { setter_extra :=
            [.Line ("self.builder.get_pointer_field(" ++ toString offset
              ++ ").set_struct(&value.struct_reader())")],
          initter_extra :=
            [.Line ("FromStructBuilder::new(self.builder.get_pointer_field("
              ++ toString offset ++ ").init_struct(" ++ the_mod ++ "::STRUCT_SIZE))")],
          setter_param := "value", initter_params := [], setter_lifetime_param := "",
          reader_type := some (the_mod ++ "::Reader"),
          builder_type := some (the_mod ++ "::Builder<'a>") }
    | .interface typeId =>
      (sm_mod scope_map typeId).map fun the_mod =>
        { setter_extra :=
            [.Line ("self.builder.get_pointer_field(" ++ toString offset
              ++ ").set_capability(value.client.hook);")],
          initter_extra := [], setter_param := "value", initter_params := [],
          setter_lifetime_param := "",
          reader_type := some (the_mod ++ "::Client"), builder_type := none }
    | .anyPointer =>
      some { setter_extra := [],
             initter_extra :=
               [.Line ("let result = any_pointer::Builder::new(self.builder.get_pointer_field("
                 ++ toString offset ++ "));"),
                .Line ("result.clear();"),
                .Line ("result")],
             setter_param := "value", initter_params := [], setter_lifetime_param := "",
             reader_type := none, builder_type := some "any_pointer::Builder<'a>" }

/-- The discriminant write pushed first into both interiors when the field is
a union member (codegen.rs:521-531). -/
def disc_lines (discriminant_offset discriminant_value : Nat) : List FormattedText :=
  if discriminant_value ≠ NO_DISCRIMINANT then
    [.Line ("self.builder.set_data_field::<u16>(" ++ toString discriminant_offset
      ++ ", " ++ toString discriminant_value ++ ");")]
  else []

/-- The fully populated locals of `generate_setter`: the discriminant prefix
followed by the field-specific pushes. -/
structure SetterParts where
  setter_interior : List FormattedText
  initter_interior : List FormattedText
  setter_param : String
  initter_params : List String
  setter_lifetime_param : String
  reader_type : Option String
  builder_type : Option String
deriving DecidableEq

/-- The state of `generate_setter` right before the assembly step
(codegen.rs:516-736). -/
def setter_parts (nm : NodeMap) (scope_map : ScopeMap) (fuel : Nat)
    (discriminant_offset : Nat) (field : Field) : Option SetterParts :=
  (setter_parts_core nm scope_map fuel field).map fun c =>
    { setter_interior := disc_lines discriminant_offset field.discriminantValue ++ c.setter_extra,
      initter_interior := disc_lines discriminant_offset field.discriminantValue ++ c.initter_extra,
      setter_param := c.setter_param,
      initter_params := c.initter_params,
      setter_lifetime_param := c.setter_lifetime_param,
      reader_type := c.reader_type,
      builder_type := c.builder_type }

/-- The assembly step of `generate_setter` (codegen.rs:737-759): emit
`set_<name>` when a reader type exists and `init_<name>` when a builder type
exists. -/
def generate_setter (nm : NodeMap) (scope_map : ScopeMap) (fuel : Nat)
    (discriminant_offset : Nat) (styled_name : String) (field : Field) :
    Option FormattedText :=
  (setter_parts nm scope_map fuel discriminant_offset field).map fun p =>
    let setter_fn : List FormattedText :=
      match p.reader_type with
      | some reader_type =>
        [.Line ("#[inline]"),
         .Line ("pub fn set_" ++ styled_name ++ p.setter_lifetime_param ++ "(&self, "
           ++ p.setter_param ++ " : " ++ reader_type ++ ") \x7b"),
         .Indent (.Branch p.setter_interior),
         .Line ("\x7d")]
      | none => []
    let initter_fn : List FormattedText :=
      match p.builder_type with
      | some builder_type =>
        [.Line ("#[inline]"),
         .Line ("pub fn init_" ++ styled_name ++ "(&self, "
           ++ String.intercalate ", " p.initter_params ++ ") -> " ++ builder_type ++ " \x7b"),
         .Indent (.Branch p.initter_interior),
         .Line ("\x7d")]
      | none => []
    .Branch (setter_fn ++ initter_fn)

/-! ## Interface dispatch emission (fragment of `generate_node`,
codegen.rs:1273-1288 and 1335-1358)

For an interface node, `generate_node` builds one dispatch arm per entry of
the interface's own `extends` list (codegen.rs:1276-1285), then emits the
`dispatch_call` implementation matching `interface_id` against the own node
id, the base arms, and a final `_ => {}` (codegen.rs:1335-1347), and the
`dispatch_call_internal` implementation matching `method_id` against the
per-method arms built in the methods loop (codegen.rs:1247-1250) with a
final `_ => {}` (codegen.rs:1349-1358).  The per-method arms are taken as an
argument here (their snake-cased names are produced by the identifier
converter, which is not involved in these claims).
-/

/-- `format!("{:x}", n)` — lowercase hex without prefix. -/
def hex_str (n : Nat) : String := String.mk (Nat.toDigits 16 n)

/-- One base-interface dispatch arm (codegen.rs:1280-1283). -/
def base_dispatch_arm (base_id : Nat) (the_mod : String) : FormattedText :=
  .Line ("0x" ++ hex_str base_id ++ " => " ++ the_mod
    ++ "::ServerDispatch::<T>::dispatch_call_internal(&mut *self.server, method_id, context),")

/-- The `base_dispatch_arms` vector (codegen.rs:1273-1285): one arm per id of
the interface's own `extends` list, in order. -/
def base_dispatch_arms (scope_map : ScopeMap) : List Nat → Option (List FormattedText)
  | [] => some []
  | base_id :: rest =>
    match sm_mod scope_map base_id with
    | none => none
    | some the_mod =>
      (base_dispatch_arms scope_map rest).map fun arms =>
        base_dispatch_arm base_id the_mod :: arms

/-- The arm `dispatch_call` emits for the interface's own node id
(codegen.rs:1341-1342). -/
def own_dispatch_arm (node_id : Nat) : FormattedText :=
  .Line ("0x" ++ hex_str node_id
    ++ " => ServerDispatch::<T>::dispatch_call_internal(&mut *self.server, method_id, context),")

/-- The emitted `impl capability::Server for ServerDispatch<T>` block with its
`dispatch_call` (codegen.rs:1335-1347). -/
def dispatch_call_impl (scope_map : ScopeMap) (node_id : Nat) (extends_ids : List Nat) :
    Option FormattedText :=
  (base_dispatch_arms scope_map extends_ids).map fun arms =>
    .Branch
      [.Line ("impl <T : Server> capability::Server for ServerDispatch<T> \x7b"),
       .Indent (.Line ("fn dispatch_call(&mut self, interface_id : u64, method_id : u16, context : capability::CallContext<any_pointer::Reader, any_pointer::Builder>) \x7b")),
       .Indent (.Indent (.Line ("match interface_id \x7b"))),
       .Indent (.Indent (.Indent (own_dispatch_arm node_id))),
       .Indent (.Indent (.Indent (.Branch arms))),
       .Indent (.Indent (.Indent (.Line ("_ => \x7b\x7d")))),
       .Indent (.Indent (.Line ("\x7d"))),
       .Indent (.Line ("\x7d")),
       .Line ("\x7d")]

/-- One per-method arm of `dispatch_call_internal` (codegen.rs:1247-1250):
the method's ordinal routed to the snake-cased server method. -/
def method_dispatch_arm (ordinal : Nat) (snake_name : String) : FormattedText :=
  .Line (toString ordinal ++ " => server." ++ snake_name
    ++ "(capability::internal_get_typed_context(context)),")

/-- The emitted `impl ServerDispatch<T>` block with `dispatch_call_internal`
(codegen.rs:1349-1358), parameterized by the per-method arms. -/
def dispatch_call_internal_impl (dispatch_arms : List FormattedText) : FormattedText :=
  .Branch
    [.Line ("impl <T : Server> ServerDispatch<T> \x7b"),
     .Indent (.Line ("pub fn dispatch_call_internal(server :&mut T, method_id : u16, context : capability::CallContext<any_pointer::Reader, any_pointer::Builder>) \x7b")),
     .Indent (.Indent (.Line ("match method_id \x7b"))),
     .Indent (.Indent (.Indent (.Branch dispatch_arms))),
     .Indent (.Indent (.Indent (.Line ("_ => \x7b\x7d")))),
     .Indent (.Indent (.Line ("\x7d"))),
     .Indent (.Line ("\x7d")),
     .Line ("\x7d")]

/-- The `extends` list of an interface node in the index (empty for any other
node) — used to state transitivity claims about the base-interface chain. -/
def extends_of (nm : NodeMap) (id : Nat) : List Nat :=
  match nm_find nm id with
  | some node =>
    match node.which with
    | .interfaceNode extendsIds => extendsIds
    | _ => []
  | none => []

/-- The transitive base interfaces of an interface: every interface reachable
through chains of `extends` (fuel-bounded; stated from the specification's
words for comparison with the emitted dispatch arms). -/
def trans_extends (nm : NodeMap) : Nat → Nat → List Nat
  | 0, _ => []
  | fuel + 1, id => (extends_of nm id).flatMap fun b => b :: trans_extends nm fuel b

/-! ## Claim C6 — rendering under `Indent` -/

mutual
/-- No `Line` fragment of the tree holds the empty string. -/
def no_empty_line : FormattedText → Bool
  | .Indent t => no_empty_line t
  | .Branch ts => no_empty_line_list ts
  | .Line s => s != ""
  | .BlankLine => true

/-- `no_empty_line` over a list of fragments. -/
def no_empty_line_list : List FormattedText → Bool
  | [] => true
  | t :: ts => no_empty_line t && no_empty_line_list ts
end

/-- The transformation the claim describes: two extra spaces prepended to
every non-empty line, empty lines left alone. -/
def indent_nonempty (l : String) : String :=
  if l = "" then l else "  " ++ l

theorem space_str_succ (i : Nat) : space_str ((i + 1) * 2) = "  " ++ space_str (i * 2) := by
  show String.mk _ = _
  have h2 : (i + 1) * 2 = (i * 2 + 1) + 1 := by ring
  rw [h2, List.replicate_succ, List.replicate_succ]
  rfl

theorem space_str_line_ne_empty (i : Nat) (s : String) (hs : s ≠ "") :
    space_str (i * 2) ++ s ≠ "" := by
  intro h
  apply hs
  have hd := congrArg String.data h
  rw [String.data_append] at hd
  rcases List.append_eq_nil.mp hd with ⟨_, h2⟩
  cases s
  simp_all

mutual
theorem to_lines_indent_shift :
    ∀ (ft : FormattedText) (i : Nat), no_empty_line ft = true →
      to_lines ft (i + 1) = (to_lines ft i).map indent_nonempty
  | .Indent t, i, h => by
    rw [to_lines, to_lines, to_lines_indent_shift t (i + 1) (by simpa [no_empty_line] using h)]
  | .Branch ts, i, h => by
    rw [to_lines, to_lines, to_lines_list_indent_shift ts i (by simpa [no_empty_line] using h)]
  | .Line s, i, h => by
    have hs : s ≠ "" := by simpa [no_empty_line] using h
    rw [to_lines, to_lines]
    simp only [List.map_cons, List.map_nil]
    rw [indent_nonempty, if_neg (space_str_line_ne_empty i s hs), space_str_succ,
      String.append_assoc]
  | .BlankLine, i, _ => by
    rw [to_lines, to_lines]
    simp [indent_nonempty]

theorem to_lines_list_indent_shift :
    ∀ (ts : List FormattedText) (i : Nat), no_empty_line_list ts = true →
      to_lines_list ts (i + 1) = (to_lines_list ts i).map indent_nonempty
  | [], i, _ => by rw [to_lines_list, to_lines_list]; rfl
  | t :: ts, i, h => by
    have hb := h
    rw [no_empty_line_list, Bool.and_eq_true] at hb
    obtain ⟨h1, h2⟩ := hb
    rw [to_lines_list, to_lines_list, to_lines_indent_shift t i h1,
      to_lines_list_indent_shift ts i h2, List.map_append]
end

/-- C6 (corrected): as stated the claim fails on a tree containing
`Line("")` — an empty `Line` renders as an empty line at indent 0 but *does*
receive the two-space prefix under `Indent`; only `BlankLine` lines are
always left empty.  At `x = Line("")`, `render(Indent(x)) = "  \n"` while
the claimed transformation of `render(x) = "\n"` leaves the empty line
untouched. -/
theorem c6_render_indent_counterexample :
    stringify (.Indent (.Line "")) ≠
      String.intercalate "\n" ((to_lines (.Line "") 0).map indent_nonempty) ++ "\n" := by
  decide

/-- C6 (amended): for every text tree none of whose `Line` fragments holds
the empty string, `render(Indent(x))` equals `render(x)` with two extra
spaces prepended to every non-empty line (empty lines — all of which come
from `BlankLine` — are left without indentation). -/
theorem c6_render_indent (ft : FormattedText) (h : no_empty_line ft = true) :
    stringify (.Indent ft) =
      String.intercalate "\n" ((to_lines ft 0).map indent_nonempty) ++ "\n" := by
  rw [stringify]
  rw [show to_lines (.Indent ft) 0 = to_lines ft (0 + 1) from rfl]
  rw [to_lines_indent_shift ft 0 h]

/-- C6 witness: the amended law evaluated on a concrete tree. -/
theorem c6_render_indent_witness :
    no_empty_line (.Branch [.Line "a", .BlankLine, .Indent (.Line "b")]) = true ∧
    stringify (.Indent (.Branch [.Line "a", .BlankLine, .Indent (.Line "b")])) =
      String.intercalate "\n"
        ((to_lines (.Branch [.Line "a", .BlankLine, .Indent (.Line "b")]) 0).map
          indent_nonempty) ++ "\n" :=
  ⟨by decide, c6_render_indent _ (by decide)⟩

/-! ## Claim C8 — absent node ids in the scope walk -/

/-- C8 (confirmed): when a visited node id is absent from the node index,
`populate_scope_map` still records the id's path entry and returns
successfully without recursing — the result is exactly the input scope map
plus that one entry (codegen.rs:165-168). -/
theorem c8_absent_node (nm : NodeMap) (fuel : Nat) (sm : ScopeMap)
    (scope_names : List String) (node_id : Nat) (h : nm_find nm node_id = none) :
    populate_scope_map nm (fuel + 1) sm scope_names node_id =
      some (sm_insert sm node_id scope_names) := by
  rw [populate_scope_map, h]

/-- C8 witness: an id absent from a concrete index is recorded and the walk
returns. -/
theorem c8_absent_node_witness :
    nm_find [] 7 = none ∧
    populate_scope_map [] 1 sm_empty ["::x_capnp"] 7 =
      some (sm_insert sm_empty 7 ["::x_capnp"]) :=
  ⟨rfl, c8_absent_node [] 0 sm_empty ["::x_capnp"] 7 rfl⟩

/-! ## Claim C9 — `capitalize_first_letter` -/

/-- C9 (corrected): the claim's panic half is right — on the empty string the
function indexes position 0 of an empty buffer and the run fails.  But the
claim's total half ("for every non-empty input it returns the input with
index 0 upper-cased and all other characters unchanged") fails for non-ASCII
first characters: the code truncates the first character to its low byte
(`as u8`) before upper-casing.  On `"āx"` (`'ā'` = U+0101, low byte 1) the
code returns `"\x01x"`, which is neither `"Āx"` (index 0 upper-cased) nor
`"āx"` (unchanged). -/
theorem c9_capitalize_counterexample :
    capitalize_first_letter (String.mk ['ā', 'x']) = some (String.mk [Char.ofNat 1, 'x']) ∧
    capitalize_first_letter (String.mk ['ā', 'x']) ≠ some (String.mk ['Ā', 'x']) ∧
    capitalize_first_letter (String.mk ['ā', 'x']) ≠ some (String.mk ['ā', 'x']) := by
  refine ⟨by decide, by decide, by decide⟩

/-- C9 (amended): `capitalize_first_letter` aborts on the empty string
(indexing position 0 of an empty buffer); on a non-empty input whose first
character's low byte (`code point mod 256`) is ASCII it returns the input
with the first character replaced by the ASCII upper-case of that byte and
every other character unchanged.  (For an all-ASCII input this is exactly
"index 0 upper-cased, rest untouched"; a non-ASCII low byte aborts in the
`to_ascii` assertion.) -/
theorem c9_capitalize (s : String) :
    (capitalize_first_letter "" = none) ∧
    (∀ c rest, s.data = c :: rest → c.toNat % 256 < 128 →
      capitalize_first_letter s =
        some (String.mk (Char.ofNat (ascii_byte_upper (c.toNat % 256)) :: rest))) := by
  constructor
  · rfl
  · intro c rest hdata hb
    cases s
    simp only at hdata
    subst hdata
    rw [capitalize_first_letter]
    simp [char_to_ascii, hb]

/-- C9 witness: the amended behaviour evaluated on `"fooBar"`. -/
theorem c9_capitalize_witness :
    ("fooBar" : String).data = 'f' :: "ooBar".data ∧ 'f'.toNat % 256 < 128 ∧
    capitalize_first_letter "fooBar" =
      some (String.mk (Char.ofNat (ascii_byte_upper ('f'.toNat % 256)) :: "ooBar".data)) :=
  ⟨rfl, by decide, (c9_capitalize "fooBar").2 'f' "ooBar".data rfl (by decide)⟩

/-! ## Claim C7 — nested-node paths extend the parent's path -/

/-- C7 (confirmed): after a scope-map walk from a seed, every node id that
appears as a `nestedNodes` child of a visited (= reachable, given enough
fuel) node has a scope-map entry equal to the parent's recorded path
extended by the child's declared name — in particular the parent's path is a
prefix of the child's.  The `Nodup` hypothesis is the well-formedness
assumption the specification itself makes (§4.1: duplicate ids only arise
from malformed schemas, resolved last-writer-wins). -/
theorem c7_nested_paths (nm : NodeMap) (fuel : Nat) (scope_names : List String)
    (root : Nat) (sm0 sm : ScopeMap) (t : List Visit)
    (hp : populate_scope_map nm fuel sm0 scope_names root = some sm)
    (ht : trace_scope_map nm fuel scope_names root = some t)
    (hnd : (trace_ids t).Nodup) :
    ∀ pp p, (pp, p) ∈ t → ∀ node, nm_find nm p = some node →
      sm p = some pp ∧ ∀ nn ∈ node.nestedNodes, sm nn.id = some (pp ++ [nn.name]) := by
  intro pp p hmem node hfind
  have heq := (populate_eq_trace nm fuel).1 sm0 scope_names root
  rw [hp, ht] at heq
  have hsm : sm = apply_trace sm0 t := by
    simpa using heq
  subst hsm
  refine ⟨apply_trace_mem_nodup t sm0 pp p hnd hmem, fun nn hnn => ?_⟩
  have hchild := trace_closed nm fuel scope_names root t ht pp p hmem node hfind nn hnn
  exact apply_trace_mem_nodup t sm0 _ _ hnd hchild

/-- A concrete three-node index for the C7 witness: a file root (id 10) with
nested child `Foo` (id 11), itself with nested child `Bar` (id 12, absent
from the index). -/
def c7nm : NodeMap :=
  [(10, ⟨[⟨"Foo", 11⟩], .file⟩),
   (11, ⟨[⟨"Bar", 12⟩], .structNode ⟨1, 0, .eightBytes, false, 0, 0, []⟩⟩)]

/-- The scope map the walk from `(["::t_capnp"], 10)` produces on `c7nm`. -/
def c7sm : ScopeMap := fun k =>
  if k = 12 then some ["::t_capnp", "Foo", "Bar"]
  else if k = 11 then some ["::t_capnp", "Foo"]
  else if k = 10 then some ["::t_capnp"]
  else none

/-- The visit trace of that walk. -/
def c7trace : List Visit :=
  [(["::t_capnp"], 10), (["::t_capnp", "Foo"], 11), (["::t_capnp", "Foo", "Bar"], 12)]

/-- C7 witness: the invariant evaluated on the concrete index `c7nm`. -/
theorem c7_nested_paths_witness :
    populate_scope_map c7nm 5 sm_empty ["::t_capnp"] 10 = some c7sm ∧
    trace_scope_map c7nm 5 ["::t_capnp"] 10 = some c7trace ∧
    (trace_ids c7trace).Nodup ∧
    (∀ pp p, (pp, p) ∈ c7trace → ∀ node, nm_find c7nm p = some node →
      c7sm p = some pp ∧ ∀ nn ∈ node.nestedNodes, c7sm nn.id = some (pp ++ [nn.name])) :=
  ⟨rfl, rfl, by decide,
    c7_nested_paths c7nm 5 ["::t_capnp"] 10 sm_empty c7sm c7trace rfl rfl (by decide)⟩

/-! ## Claim C1 — the requested file's root segment -/

/-- C1 (corrected, counterexample): the claim predicts the requested file's
root entry is the single segment `"<filestem>_capnp"`, but `main` seeds the
walk with `root_mod = format!("::{}", root_name)` (codegen.rs:1467-1469), so
the recorded single segment carries the leading `::` sigil.  For the
requested file `foo-bar.capnp` (root id 1, no imports) the entry is
`["::foo_bar_capnp"]`, not `["foo_bar_capnp"]`. -/
theorem c1_requested_root_counterexample :
    (populate_for_file [(1, ⟨[], .file⟩)] 2 ⟨1, "foo-bar", []⟩ sm_empty).map (fun sm => sm 1)
      = some (some ["::foo_bar_capnp"]) ∧
    (populate_for_file [(1, ⟨[], .file⟩)] 2 ⟨1, "foo-bar", []⟩ sm_empty).map (fun sm => sm 1)
      ≠ some (some ["foo_bar_capnp"]) := by
  exact ⟨by decide, by decide⟩

/-- C1 (amended): for every requested file, the scope-map entry of the file's
root node id after `main`'s per-file population is the single-segment path
`["::<filestem>_capnp"]`, where `<filestem>` is the stem with every `-`
replaced by `_` — i.e. the claimed segment prefixed with the `::` sigil.
The side condition says the root id is not revisited later in the walk
(guaranteed for well-formed schemas). -/
theorem c1_requested_root (nm : NodeMap) (fuel : Nat) (f : RequestedFile)
    (sm0 sm : ScopeMap)
    (h : populate_for_file nm fuel f sm0 = some sm)
    (hrest : ∀ t, trace_scope_map nm fuel [requested_root_mod f.stem] f.id = some t →
      f.id ∉ trace_ids (t.drop 1)) :
    sm f.id = some [requested_root_mod f.stem] := by
  rw [populate_for_file] at h
  cases hi : populate_imports nm fuel f.imports sm0 with
  | none => rw [hi] at h; exact absurd h (by simp)
  | some sm1 =>
    rw [hi] at h
    dsimp only at h
    have heq := (populate_eq_trace nm fuel).1 sm1 [requested_root_mod f.stem] f.id
    rw [h] at heq
    cases ht : trace_scope_map nm fuel [requested_root_mod f.stem] f.id with
    | none => rw [ht] at heq; exact absurd heq (by simp)
    | some t =>
      rw [ht] at heq
      have hsm : sm = apply_trace sm1 t := by simpa using heq
      obtain ⟨rest, hrt⟩ := trace_head nm fuel _ _ t ht
      have hni : f.id ∉ trace_ids rest := by
        have := hrest t ht
        rw [hrt] at this
        simpa using this
      subst hsm
      rw [hrt, apply_trace_cons, apply_trace_not_mem rest _ _ hni]
      simp [sm_insert]

/-- C1 witness: the amended invariant on the `foo-bar.capnp` request. -/
theorem c1_requested_root_witness :
    populate_for_file [(1, ⟨[], .file⟩)] 2 ⟨1, "foo-bar", []⟩ sm_empty =
      some (sm_insert sm_empty 1 ["::foo_bar_capnp"]) ∧
    sm_insert sm_empty 1 ["::foo_bar_capnp"] 1 = some [requested_root_mod "foo-bar"] :=
  ⟨rfl,
    c1_requested_root [(1, ⟨[], .file⟩)] 2 ⟨1, "foo-bar", []⟩ sm_empty
      (sm_insert sm_empty 1 ["::foo_bar_capnp"]) rfl
      (fun t ht => by
        have h2 : some t = some [([requested_root_mod "foo-bar"], (1 : Nat))] :=
          ht.symm.trans (by decide)
        obtain rfl : t = [([requested_root_mod "foo-bar"], (1 : Nat))] :=
          Option.some.inj h2
        decide)⟩

/-! ## Claim C5 — the discriminant is written first -/

/-- C5 (confirmed): for every field whose `discriminantValue` is not the
sentinel `0xFFFF`, the emitted setter and initter bodies begin with the u16
discriminant write at `discriminantOffset` — it precedes every payload
statement, because `generate_setter` pushes it before the field-specific
`match` runs (codegen.rs:521-531). -/
theorem c5_discriminant_before_payload (nm : NodeMap) (sm : ScopeMap) (fuel : Nat)
    (discriminant_offset : Nat) (field : Field) (p : SetterParts)
    (h : setter_parts nm sm fuel discriminant_offset field = some p)
    (hd : field.discriminantValue ≠ NO_DISCRIMINANT) :
    p.setter_interior.head? =
      some (.Line ("self.builder.set_data_field::<u16>(" ++ toString discriminant_offset
        ++ ", " ++ toString field.discriminantValue ++ ");")) ∧
    p.initter_interior.head? =
      some (.Line ("self.builder.set_data_field::<u16>(" ++ toString discriminant_offset
        ++ ", " ++ toString field.discriminantValue ++ ");")) := by
  rw [setter_parts] at h
  cases hc : setter_parts_core nm sm fuel field with
  | none => rw [hc] at h; exact absurd h (by simp)
  | some c =>
    rw [hc] at h
    simp only [Option.map_some'] at h
    obtain rfl := Option.some.inj h
    simp [disc_lines, hd]

/-- The setter state for the C5 witness: a union `Text` field with
discriminant value 0 at discriminant offset 2. -/
def c5parts : SetterParts :=
  { setter_interior :=
      [.Line "self.builder.set_data_field::<u16>(2, 0);",
       .Line "self.builder.get_pointer_field(0).set_text(value);"],
    initter_interior :=
      [.Line "self.builder.set_data_field::<u16>(2, 0);",
       .Line "self.builder.get_pointer_field(0).init_text(size)"],
    setter_param := "value", initter_params := ["size : uint"],
    setter_lifetime_param := "",
    reader_type := some "text::Reader", builder_type := some "text::Builder<'a>" }

/-- C5 witness: the discriminant-first property on that concrete union
field. -/
theorem c5_discriminant_before_payload_witness :
    setter_parts [] sm_empty 1 2 ⟨"a", 0, .slot 0 .text .void⟩ = some c5parts ∧
    (0 : Nat) ≠ NO_DISCRIMINANT ∧
    c5parts.setter_interior.head? = some (.Line "self.builder.set_data_field::<u16>(2, 0);") ∧
    c5parts.initter_interior.head? = some (.Line "self.builder.set_data_field::<u16>(2, 0);") :=
  ⟨rfl, by decide,
    (c5_discriminant_before_payload [] sm_empty 1 2 ⟨"a", 0, .slot 0 .text .void⟩ c5parts
      rfl (by decide)).1,
    (c5_discriminant_before_payload [] sm_empty 1 2 ⟨"a", 0, .slot 0 .text .void⟩ c5parts
      rfl (by decide)).2⟩

/-! ## Claim C4 — primitive default masking -/

/-- The Bool/integer/float slot pairs: the Rust type token, the default as an
integer, and the mask string `prim_default` prints for the setter. -/
def numeric_prim : Ty → Val → Option (String × Int × String)
  | .int8, .int8 i => some ("i8", i, toString i)
  | .int16, .int16 i => some ("i16", i, toString i)
  | .int32, .int32 i => some ("i32", i, toString i)
  | .int64, .int64 i => some ("i64", i, toString i)
  | .uint8, .uint8 n => some ("u8", Int.ofNat n, toString n)
  | .uint16, .uint16 n => some ("u16", Int.ofNat n, toString n)
  | .uint32, .uint32 n => some ("u32", Int.ofNat n, toString n)
  | .uint64, .uint64 n => some ("u64", Int.ofNat n, toString n)
  | .float32, .float32 f => some ("f32", f, toString f ++ "f32")
  | .float64, .float64 f => some ("f64", f, toString f ++ "f64")
  | _, _ => none

theorem prim_default_of_numeric (t : Ty) (v : Val) (ts : String) (d : Int) (ms : String)
    (h : numeric_prim t v = some (ts, d, ms)) :
    prim_default v = some (if d = 0 then none else some ms) := by
  unfold numeric_prim at h
  split at h
  all_goals try exact Option.noConfusion h
  all_goals
    simp only [Option.some.injEq, Prod.mk.injEq] at h
    obtain ⟨rfl, rfl, rfl⟩ := h
    simp only [prim_default]
    rename_i x
    rcases Decidable.em (x = 0) with h0 | h0 <;>
      simp [h0, Int.natCast_eq_zero, Int.ofNat_eq_natCast]

theorem core_of_numeric (nm : NodeMap) (sm : ScopeMap) (fuel : Nat) (name : String)
    (dv o : Nat) (t : Ty) (v : Val) (ts : String) (d : Int) (ms : String)
    (h : numeric_prim t v = some (ts, d, ms)) :
    setter_parts_core nm sm fuel ⟨name, dv, .slot o t v⟩ = setter_common_case ts o v := by
  unfold numeric_prim at h
  split at h
  all_goals try exact Option.noConfusion h
  all_goals
    simp only [Option.some.injEq, Prod.mk.injEq] at h
    obtain ⟨rfl, rfl, rfl⟩ := h
    rfl

/-- C4 (confirmed): for every slot field of Bool, integer, or float type, the
emitted getter is the unmasked data-field read at the declared offset when
the schema default equals the type's zero, and the masked read carrying the
default bit pattern otherwise; the emitted setter is symmetric (unmasked
write for a zero default, masked write with the same default otherwise).
Booleans use the `bool_field` read/write pair with mask literal `true`. -/
theorem c4_primitive_masking :
    (∀ (sm : ScopeMap) (name : String) (dv o : Nat) (b : Bool) (isR : Bool),
      getter_text sm ⟨name, dv, .slot o .bool (.bool b)⟩ isR =
        some ("bool",
          if b then
            .Line ("self." ++ member_str isR ++ ".get_bool_field_mask("
              ++ toString o ++ ", true)")
          else
            .Line ("self." ++ member_str isR ++ ".get_bool_field(" ++ toString o ++ ")"))) ∧
    (∀ (sm : ScopeMap) (name : String) (dv o : Nat) (t : Ty) (v : Val)
        (ts : String) (d : Int) (ms : String) (isR : Bool),
      numeric_prim t v = some (ts, d, ms) →
      getter_text sm ⟨name, dv, .slot o t v⟩ isR =
        some (ts,
          if d = 0 then
            .Line ("self." ++ member_str isR ++ ".get_data_field::<" ++ ts ++ ">("
              ++ toString o ++ ")")
          else
            .Line ("self." ++ member_str isR ++ ".get_data_field_mask::<" ++ ts ++ ">("
              ++ toString o ++ ", " ++ toString d ++ ts ++ ")"))) ∧
    (∀ (nm : NodeMap) (sm : ScopeMap) (fuel doff : Nat) (name : String) (dv o : Nat)
        (b : Bool),
      setter_parts nm sm fuel doff ⟨name, dv, .slot o .bool (.bool b)⟩ =
        some { setter_interior := disc_lines doff dv ++
                 [if b then
                    .Line ("self.builder.set_bool_field_mask(" ++ toString o
                      ++ ", value, true);")
                  else
                    .Line ("self.builder.set_bool_field(" ++ toString o ++ ", value);")],
               initter_interior := disc_lines doff dv,
               setter_param := "value", initter_params := [], setter_lifetime_param := "",
               reader_type := some "bool", builder_type := none }) ∧
    (∀ (nm : NodeMap) (sm : ScopeMap) (fuel doff : Nat) (name : String) (dv o : Nat)
        (t : Ty) (v : Val) (ts : String) (d : Int) (ms : String),
      numeric_prim t v = some (ts, d, ms) →
      setter_parts nm sm fuel doff ⟨name, dv, .slot o t v⟩ =
        some { setter_interior := disc_lines doff dv ++
                 [if d = 0 then
                    .Line ("self.builder.set_data_field::<" ++ ts ++ ">(" ++ toString o
                      ++ ", value);")
                  else
                    .Line ("self.builder.set_data_field_mask::<" ++ ts ++ ">(" ++ toString o
                      ++ ", value, " ++ ms ++ ");")],
               initter_interior := disc_lines doff dv,
               setter_param := "value", initter_params := [], setter_lifetime_param := "",
               reader_type := some ts, builder_type := none }) := by
  refine ⟨fun sm name dv o b isR => ?_, fun sm name dv o t v ts d ms isR h => ?_,
    fun nm sm fuel doff name dv o b => ?_, fun nm sm fuel doff name dv o t v ts d ms h => ?_⟩
  · cases b <;> rfl
  · unfold numeric_prim at h
    split at h <;> simp_all [getter_text, getter_common_case]
  · cases b <;>
      simp [setter_parts, setter_parts_core, prim_default, disc_lines,
        String.append_assoc]
  · have hpd := prim_default_of_numeric t v ts d ms h
    have hcore := core_of_numeric nm sm fuel name dv o t v ts d ms h
    rw [setter_parts, hcore, setter_common_case, hpd]
    simp only [Option.map_some']
    by_cases hz : d = 0 <;> simp [hz]

/-- C4 witness: the masking rule on a zero-default `u32` getter and a
nonzero-default `i32` setter. -/
theorem c4_primitive_masking_witness :
    numeric_prim .uint32 (.uint32 0) = some ("u32", Int.ofNat 0, "0") ∧
    getter_text sm_empty ⟨"widgetCount", NO_DISCRIMINANT, .slot 0 .uint32 (.uint32 0)⟩ true =
      some ("u32", .Line "self.reader.get_data_field::<u32>(0)") ∧
    numeric_prim .int32 (.int32 (-12345678)) = some ("i32", -12345678, "-12345678") ∧
    setter_parts [] sm_empty 1 0 ⟨"x", NO_DISCRIMINANT, .slot 3 .int32 (.int32 (-12345678))⟩ =
      some { setter_interior :=
               [.Line "self.builder.set_data_field_mask::<i32>(3, value, -12345678);"],
             initter_interior := [], setter_param := "value", initter_params := [],
             setter_lifetime_param := "", reader_type := some "i32", builder_type := none } :=
  ⟨rfl,
   c4_primitive_masking.2.1 sm_empty "widgetCount" NO_DISCRIMINANT 0 .uint32 (.uint32 0)
     "u32" (Int.ofNat 0) "0" true rfl,
   rfl,
   c4_primitive_masking.2.2.2 [] sm_empty 1 0 "x" NO_DISCRIMINANT 3 .int32
     (.int32 (-12345678)) "i32" (-12345678) "-12345678" rfl⟩

/-! ## Claim C2 — enum slot accessors are never masked -/

/-- The scope map for the C2 inputs: enum node 9 lives at
`::x_capnp::Color`. -/
def c2sm : ScopeMap := fun k => if k = 9 then some ["::x_capnp", "Color"] else none

/-- C2 (corrected, counterexample): the claim predicts that an enum slot with
nonzero schema default gets a masked u16 read (and write) XOR'd with the
default, but `getter_text` emits the unmasked
`FromPrimitive::from_u16(...get_data_field::<u16>(..))` for *every* default
(codegen.rs:389-398), and `generate_setter` always emits the unmasked
`set_data_field::<u16>(offset, value as u16)` (codegen.rs:702-709).  Here
the default is `Value::Enum(3) ≠ 0` yet both accessors are unmasked. -/
theorem c2_enum_masking_counterexample :
    (getter_text c2sm ⟨"color", NO_DISCRIMINANT, .slot 4 (.enum 9) (.enum 3)⟩ true).map
        (fun pr => pr.2)
      = some (.Branch [.Line "FromPrimitive::from_u16(self.reader.get_data_field::<u16>(4))"]) ∧
    Val.enum 3 ≠ Val.enum 0 ∧
    (getter_text c2sm ⟨"color", NO_DISCRIMINANT, .slot 4 (.enum 9) (.enum 3)⟩ true).map
        (fun pr => pr.2)
      ≠ some (.Line "self.reader.get_data_field_mask::<u16>(4, 3u16)") ∧
    (getter_text c2sm ⟨"color", NO_DISCRIMINANT, .slot 4 (.enum 9) (.enum 3)⟩ true).map
        (fun pr => pr.2)
      ≠ some (.Branch [.Line "self.reader.get_data_field_mask::<u16>(4, 3u16)"]) ∧
    (setter_parts [] c2sm 1 0 ⟨"color", NO_DISCRIMINANT, .slot 4 (.enum 9) (.enum 3)⟩).map
        (fun p => p.setter_interior)
      = some [.Line "self.builder.set_data_field::<u16>(4, value as u16)"] ∧
    (setter_parts [] c2sm 1 0 ⟨"color", NO_DISCRIMINANT, .slot 4 (.enum 9) (.enum 3)⟩).map
        (fun p => p.setter_interior)
      ≠ some [.Line "self.builder.set_data_field_mask::<u16>(4, value, 3);"] := by
  refine ⟨by decide, by decide, by decide, by decide, by decide, by decide⟩

/-- C2 (amended): for every slot field of enum type, whatever the schema
default value, the emitted Reader/Builder getter is the *unmasked* u16
data-field read at the declared offset wrapped in
`FromPrimitive::from_u16` (yielding an `Option`), and the emitted setter is
the *unmasked* u16 write `set_data_field::<u16>(offset, value as u16)`
(preceded only by the union discriminant write, when the field is a union
member). -/
theorem c2_enum_accessors (nm : NodeMap) (sm : ScopeMap) (fuel doff : Nat)
    (tid o dv : Nat) (scope : List String) (v : Val) (name : String) (isR : Bool)
    (h : sm tid = some scope) :
    getter_text sm ⟨name, dv, .slot o (.enum tid) v⟩ isR =
      some ("Option<" ++ String.intercalate "::" scope ++ "::Reader>",
        .Branch [.Line ("FromPrimitive::from_u16(self." ++ member_str isR
          ++ ".get_data_field::<u16>(" ++ toString o ++ "))")]) ∧
    setter_parts nm sm fuel doff ⟨name, dv, .slot o (.enum tid) v⟩ =
      some { setter_interior := disc_lines doff dv ++
               [.Line ("self.builder.set_data_field::<u16>(" ++ toString o
                 ++ ", value as u16)")],
             initter_interior := disc_lines doff dv,
             setter_param := "value", initter_params := [], setter_lifetime_param := "",
             reader_type := some (String.intercalate "::" scope ++ "::Reader"),
             builder_type := none } := by
  constructor
  · simp [getter_text, sm_mod, h]
  · simp [setter_parts, setter_parts_core, sm_mod, h]

/-- C2 witness: a union enum field with nonzero default `Value::Enum(3)`. -/
theorem c2_enum_accessors_witness :
    c2sm 9 = some ["::x_capnp", "Color"] ∧
    (getter_text c2sm ⟨"color", 1, .slot 4 (.enum 9) (.enum 3)⟩ false =
      some ("Option<::x_capnp::Color::Reader>",
        .Branch [.Line "FromPrimitive::from_u16(self.builder.get_data_field::<u16>(4))"]) ∧
     setter_parts [] c2sm 1 6 ⟨"color", 1, .slot 4 (.enum 9) (.enum 3)⟩ =
      some { setter_interior := [.Line "self.builder.set_data_field::<u16>(6, 1);",
                                 .Line "self.builder.set_data_field::<u16>(4, value as u16)"],
             initter_interior := [.Line "self.builder.set_data_field::<u16>(6, 1);"],
             setter_param := "value", initter_params := [], setter_lifetime_param := "",
             reader_type := some "::x_capnp::Color::Reader", builder_type := none }) :=
  ⟨rfl, c2_enum_accessors [] c2sm 1 6 9 4 1 ["::x_capnp", "Color"] (.enum 3) "color" false rfl⟩

/-! ## Claim C3 — dispatch arms cover only the direct bases -/

/-- Option-collected scope lookups of a list of node ids. -/
def scopes_of (sm : ScopeMap) : List Nat → Option (List (List String))
  | [] => some []
  | id :: rest =>
    match sm id with
    | none => none
    | some scope => (scopes_of sm rest).map fun scopes => scope :: scopes

theorem base_dispatch_arms_eq (sm : ScopeMap) :
    ∀ (ids : List Nat) (scopes : List (List String)), scopes_of sm ids = some scopes →
      base_dispatch_arms sm ids =
        some ((ids.zip scopes).map fun pr =>
          base_dispatch_arm pr.1 (String.intercalate "::" pr.2)) := by
  intro ids
  induction ids with
  | nil =>
    intro scopes h
    obtain rfl : ([] : List (List String)) = scopes := by simpa [scopes_of] using h
    rfl
  | cons id rest ih =>
    intro scopes h
    rw [scopes_of] at h
    cases hs : sm id with
    | none => rw [hs] at h; exact absurd h (by simp)
    | some scope =>
      rw [hs] at h
      dsimp only at h
      cases hr : scopes_of sm rest with
      | none => rw [hr] at h; exact absurd h (by simp)
      | some rscopes =>
        rw [hr] at h
        obtain rfl : scope :: rscopes = scopes := by simpa using h
        have hm : sm_mod sm id = some (String.intercalate "::" scope) := by
          simp [sm_mod, hs]
        rw [base_dispatch_arms, hm, ih rscopes hr]
        simp

/-- The node index for the C3 counterexample: interface `A` (id 1) extends
`B` (id 2), which extends `C` (id 3). -/
def c3nm : NodeMap :=
  [(1, ⟨[], .interfaceNode [2]⟩), (2, ⟨[], .interfaceNode [3]⟩), (3, ⟨[], .interfaceNode []⟩)]

/-- The scope map for the C3 counterexample. -/
def c3sm : ScopeMap := fun k =>
  if k = 1 then some ["::m", "A"]
  else if k = 2 then some ["::m", "B"]
  else if k = 3 then some ["::m", "C"]
  else none

/-- C3 (corrected, counterexample): the claim says `dispatch_call` matches
the node id of *every transitive* base interface, but the emitted arms cover
only the interface's own id and its *direct* `extends` entries
(codegen.rs:1276-1285).  For `A extends B extends C`, `C` (id 3) is a
transitive base of `A` (id 1), yet `A`'s rendered `dispatch_call` contains
no arm for `0x3` — only `0x1` (own) and `0x2` (direct base). -/
theorem c3_transitive_base_counterexample :
    3 ∈ trans_extends c3nm 2 1 ∧
    extends_of c3nm 1 = [2] ∧
    (dispatch_call_impl c3sm 1 (extends_of c3nm 1)).map (fun t => to_lines t 0) =
      some
        ["impl <T : Server> capability::Server for ServerDispatch<T> \x7b",
         "  fn dispatch_call(&mut self, interface_id : u64, method_id : u16, context : capability::CallContext<any_pointer::Reader, any_pointer::Builder>) \x7b",
         "    match interface_id \x7b",
         "      0x1 => ServerDispatch::<T>::dispatch_call_internal(&mut *self.server, method_id, context),",
         "      0x2 => ::m::B::ServerDispatch::<T>::dispatch_call_internal(&mut *self.server, method_id, context),",
         "      _ => \x7b\x7d",
         "    \x7d",
         "  \x7d",
         "\x7d"] ∧
    (dispatch_call_impl c3sm 1 (extends_of c3nm 1)).map (fun t =>
        (to_lines t 0).contains
          "      0x3 => ::m::C::ServerDispatch::<T>::dispatch_call_internal(&mut *self.server, method_id, context),")
      = some false := by
  refine ⟨by decide, by decide, by decide, by decide⟩

/-- C3 (amended): for every interface node, the emitted
`ServerDispatch::dispatch_call` matches `interfaceId` against the
interface's own node id and against the node id of each *direct* base in its
`extends` list (one arm per entry, in order, delegating to that base's
`ServerDispatch::dispatch_call_internal`); transitively inherited bases get
no arm of their own and fall to the final `_ => {}`. -/
theorem c3_dispatch_direct_bases (sm : ScopeMap) (node_id : Nat)
    (extends_ids : List Nat) (scopes : List (List String))
    (h : scopes_of sm extends_ids = some scopes) :
    dispatch_call_impl sm node_id extends_ids =
      some (.Branch
        [.Line ("impl <T : Server> capability::Server for ServerDispatch<T> \x7b"),
         .Indent (.Line ("fn dispatch_call(&mut self, interface_id : u64, method_id : u16, context : capability::CallContext<any_pointer::Reader, any_pointer::Builder>) \x7b")),
         .Indent (.Indent (.Line ("match interface_id \x7b"))),
         .Indent (.Indent (.Indent (own_dispatch_arm node_id))),
         .Indent (.Indent (.Indent (.Branch ((extends_ids.zip scopes).map fun pr =>
           base_dispatch_arm pr.1 (String.intercalate "::" pr.2))))),
         .Indent (.Indent (.Indent (.Line ("_ => \x7b\x7d")))),
         .Indent (.Indent (.Line ("\x7d"))),
         .Indent (.Line ("\x7d")),
         .Line ("\x7d")]) := by
  rw [dispatch_call_impl, base_dispatch_arms_eq sm extends_ids scopes h]
  rfl

/-- C3 witness: the amended arm layout on the `A extends B` interface. -/
theorem c3_dispatch_direct_bases_witness :
    scopes_of c3sm [2] = some [["::m", "B"]] ∧
    dispatch_call_impl c3sm 1 [2] =
      some (.Branch
        [.Line ("impl <T : Server> capability::Server for ServerDispatch<T> \x7b"),
         .Indent (.Line ("fn dispatch_call(&mut self, interface_id : u64, method_id : u16, context : capability::CallContext<any_pointer::Reader, any_pointer::Builder>) \x7b")),
         .Indent (.Indent (.Line ("match interface_id \x7b"))),
         .Indent (.Indent (.Indent (own_dispatch_arm 1))),
         .Indent (.Indent (.Indent (.Branch (([2].zip [["::m", "B"]]).map fun pr =>
           base_dispatch_arm pr.1 (String.intercalate "::" pr.2))))),
         .Indent (.Indent (.Indent (.Line ("_ => \x7b\x7d")))),
         .Indent (.Indent (.Line ("\x7d"))),
         .Indent (.Line ("\x7d")),
         .Line ("\x7d")]) :=
  ⟨rfl, c3_dispatch_direct_bases c3sm 1 [2] [["::m", "B"]] rfl⟩

/-! ## Claim C10 — unmatched ids fall into a silent catch-all -/

/-- C10 (confirmed): in the emitted dispatch code, the `interface_id` match
of `dispatch_call` consists of the own-id arm, the base arms, and a final
`_ => {}` arm, and the `method_id` match of `dispatch_call_internal`
consists of the per-method arms followed by a final `_ => {}` arm
(codegen.rs:1344, 1355).  An id matching no earlier arm therefore reaches a
catch-all whose body is empty: the call is silently dropped, not reported.
The conclusion gives the full rendered line lists, with `_ => {}` as the
last arm of each match. -/
theorem c10_dispatch_catch_all (sm : ScopeMap) (node_id : Nat)
    (extends_ids : List Nat) (t : FormattedText)
    (h : dispatch_call_impl sm node_id extends_ids = some t) :
    (∃ arms, base_dispatch_arms sm extends_ids = some arms ∧
      to_lines t 0 =
        ["impl <T : Server> capability::Server for ServerDispatch<T> \x7b",
         "  " ++ "fn dispatch_call(&mut self, interface_id : u64, method_id : u16, context : capability::CallContext<any_pointer::Reader, any_pointer::Builder>) \x7b",
         "    " ++ "match interface_id \x7b",
         "      " ++ ("0x" ++ hex_str node_id
           ++ " => ServerDispatch::<T>::dispatch_call_internal(&mut *self.server, method_id, context),")]
        ++ to_lines (.Branch arms) 3
        ++ ["      " ++ "_ => \x7b\x7d", "    " ++ "\x7d", "  " ++ "\x7d", "\x7d"]) ∧
    (∀ dispatch_arms : List FormattedText,
      to_lines (dispatch_call_internal_impl dispatch_arms) 0 =
        ["impl <T : Server> ServerDispatch<T> \x7b",
         "  " ++ "pub fn dispatch_call_internal(server :&mut T, method_id : u16, context : capability::CallContext<any_pointer::Reader, any_pointer::Builder>) \x7b",
         "    " ++ "match method_id \x7b"]
        ++ to_lines (.Branch dispatch_arms) 3
        ++ ["      " ++ "_ => \x7b\x7d", "    " ++ "\x7d", "  " ++ "\x7d", "\x7d"]) := by
  constructor
  · rw [dispatch_call_impl] at h
    cases hb : base_dispatch_arms sm extends_ids with
    | none => rw [hb] at h; exact absurd h (by simp)
    | some arms =>
      rw [hb] at h
      simp only [Option.map_some'] at h
      obtain rfl := Option.some.inj h
      exact ⟨arms, rfl, rfl⟩
  · intro dispatch_arms
    rfl

/-- The scope map for the C10 witness. -/
def c10sm : ScopeMap := fun k => if k = 2 then some ["::m", "B"] else none

/-- The dispatch text for the C10 witness. -/
def c10tree : FormattedText :=
  .Branch
    [.Line ("impl <T : Server> capability::Server for ServerDispatch<T> \x7b"),
     .Indent (.Line ("fn dispatch_call(&mut self, interface_id : u64, method_id : u16, context : capability::CallContext<any_pointer::Reader, any_pointer::Builder>) \x7b")),
     .Indent (.Indent (.Line ("match interface_id \x7b"))),
     .Indent (.Indent (.Indent (own_dispatch_arm 1))),
     .Indent (.Indent (.Indent (.Branch [base_dispatch_arm 2 "::m::B"]))),
     .Indent (.Indent (.Indent (.Line ("_ => \x7b\x7d")))),
     .Indent (.Indent (.Line ("\x7d"))),
     .Indent (.Line ("\x7d")),
     .Line ("\x7d")]

/-- C10 witness: the catch-all layout on a concrete interface. -/
theorem c10_dispatch_catch_all_witness :
    dispatch_call_impl c10sm 1 [2] = some c10tree ∧
    ((∃ arms, base_dispatch_arms c10sm [2] = some arms ∧
      to_lines c10tree 0 =
        ["impl <T : Server> capability::Server for ServerDispatch<T> \x7b",
         "  " ++ "fn dispatch_call(&mut self, interface_id : u64, method_id : u16, context : capability::CallContext<any_pointer::Reader, any_pointer::Builder>) \x7b",
         "    " ++ "match interface_id \x7b",
         "      " ++ ("0x" ++ hex_str 1
           ++ " => ServerDispatch::<T>::dispatch_call_internal(&mut *self.server, method_id, context),")]
        ++ to_lines (.Branch arms) 3
        ++ ["      " ++ "_ => \x7b\x7d", "    " ++ "\x7d", "  " ++ "\x7d", "\x7d"]) ∧
    (∀ dispatch_arms : List FormattedText,
      to_lines (dispatch_call_internal_impl dispatch_arms) 0 =
        ["impl <T : Server> ServerDispatch<T> \x7b",
         "  " ++ "pub fn dispatch_call_internal(server :&mut T, method_id : u16, context : capability::CallContext<any_pointer::Reader, any_pointer::Builder>) \x7b",
         "    " ++ "match method_id \x7b"]
        ++ to_lines (.Branch dispatch_arms) 3
        ++ ["      " ++ "_ => \x7b\x7d", "    " ++ "\x7d", "  " ++ "\x7d", "\x7d"])) :=
  ⟨rfl, c10_dispatch_catch_all c10sm 1 [2] c10tree rfl⟩

end Codegen
